import Mathlib

/-!
Verification of the Insight Layer of the clipnotes backend
(`backend/app/services/insights/`): window validation, the aggregator,
the deterministic summary generator, the TTL snapshot cache (including its
per-key-lock stampede behaviour, modelled as an interleaving machine over
atomic await-to-await segments), the share store and the insight service.

Timestamps are modelled as integers (seconds since the UTC epoch); Python
aware datetimes compare and subtract exactly like their underlying
instants, and `_as_utc` is the identity on instants.  Python `dict`s are
modelled as insertion-ordered association lists, `str` by Lean `String`
(ASCII behaviour), exceptions by `Except`.
-/

namespace Clipnotes

/-! ## Python string primitives used by the source -/

/-- Model of Python whitespace for `str.strip` (ASCII fragment). -/
def wsChar (c : Char) : Bool := c.isWhitespace

/-- `str.strip()` on the underlying character list. -/
def stripList (l : List Char) : List Char :=
  ((l.dropWhile wsChar).reverse.dropWhile wsChar).reverse

/-- Model of Python `str.strip()`. -/
def pyStrip (s : String) : String := ⟨stripList s.data⟩

/-- Model of Python `str.lower()` (ASCII fragment). -/
def pyLower (s : String) : String := ⟨s.data.map Char.toLower⟩

/-- One step of Python `str.title()`: `prev` records whether the previous
character was alphabetic. -/
def titleList : List Char → Bool → List Char
  | [], _ => []
  | c :: rest, prev =>
      if c.isAlpha then
        (if prev then c.toLower else c.toUpper) :: titleList rest true
      else
        c :: titleList rest false

/-- Model of Python `str.title()` (ASCII fragment). -/
def pyTitle (s : String) : String := ⟨titleList s.data false⟩

/-- `str.rstrip()`. -/
def pyRstrip (s : String) : String := ⟨(s.data.reverse.dropWhile wsChar).reverse⟩

/-- Decimal digit character, `n < 10`. -/
def digitChar (n : Nat) : Char := Char.ofNat (48 + n)

/-- Accumulator version of decimal formatting of a natural number, with
structural fuel (any fuel bounding the digit count gives the digits). -/
def formatNatGo : Nat → Nat → List Char → List Char
  | 0, _, acc => acc
  | fuel + 1, n, acc =>
      if n < 10 then digitChar n :: acc
      else formatNatGo fuel (n / 10) (digitChar (n % 10) :: acc)

/-- Decimal rendering of a natural number, as produced by Python string
formatting of a non-negative int. -/
def formatNat (n : Nat) : String := ⟨formatNatGo (n + 1) n []⟩

/-- Python `"sep".join` specialised to a single-space separator. -/
def joinSp : List String → String
  | [] => ""
  | [x] => x
  | x :: xs => x ++ " " ++ joinSp xs

/-! ## `validators.py` -/

/-- `SUPPORTED_WINDOWS` from `validators.py`. -/
def SUPPORTED_WINDOWS : List String := ["24h", "7d"]

/-- `validate_window` from `validators.py`: reject falsy input, normalise by
strip + lower, accept only the two supported identifiers.  Python raising
`ValueError` is modelled as `Except.error ()`. -/
def validate_window (value : Option String) : Except Unit String :=
  match value with
  | none => .error ()
  | some v =>
      if v = "" then .error ()
      else
        let normalised := pyLower (pyStrip v)
        if SUPPORTED_WINDOWS.contains normalised then .ok normalised
        else .error ()

/-! ## Data model (`models/insights.py`, `aggregator.py`)

`InsightWindow = Literal["24h", "7d"]` is modelled as a two-constructor
inductive; its string form is recovered by `InsightWindow.str`.  The
pydantic severity fields carry `ge=0`, so they are natural numbers. -/

inductive InsightWindow
  | w24h
  | w7d
  deriving DecidableEq, Inhabited

/-- The literal string of a window identifier. -/
def InsightWindow.str : InsightWindow → String
  | .w24h => "24h"
  | .w7d => "7d"

structure InsightSeverityTotals where
  low : Nat
  medium : Nat
  high : Nat
  deriving DecidableEq, Inhabited

structure InsightSeriesBucket where
  bucket_start : Int
  total : Nat
  severity : InsightSeverityTotals
  deriving DecidableEq, Inhabited

/-- `avg_severity` is a float in the source (`weight / count` with integer
weights); it is modelled exactly as a rational. -/
structure InsightTopLabel where
  label : String
  count : Nat
  avg_severity : Option ℚ
  deriving DecidableEq, Inhabited

/-- `AggregatedInsights` from `aggregator.py`.  `delta` is a Python
`dict[str, int] | None`, modelled as an insertion-ordered association
list. -/
structure AggregatedInsights where
  window : InsightWindow
  generated_at : Int
  severity_totals : InsightSeverityTotals
  series : List InsightSeriesBucket
  top_labels : List InsightTopLabel
  analyses : Nat
  high_severity_analyses : Nat
  delta : Option (List (String × Int))
  deriving Inhabited

/-! ## `generator.py` -/

/-- Python `", ".join`. -/
def joinCommaSp : List String → String
  | [] => ""
  | [x] => x
  | x :: xs => x ++ ", " ++ joinCommaSp xs

/-- `_format_top_labels` from `generator.py`. -/
def _format_top_labels (top_labels : List InsightTopLabel) : String :=
  if top_labels = [] then ""
  else
    let names := (top_labels.take 3).map (fun l => l.label)
    match names with
    | [] => ""
    | [x] => "Dominant activity: " ++ x ++ "."
    | x :: xs =>
        "Dominant activity: " ++ joinCommaSp ((x :: xs).dropLast)
          ++ ", and " ++ (x :: xs).getLast (by simp) ++ "."

/-- `_format_delta` from `generator.py`: each sentence is emitted only when
its key is present (the dict holds ints, so the `isinstance` check always
passes on present keys) and nonzero. -/
def _format_delta (delta : List (String × Int)) : String :=
  let analyses_delta := delta.lookup "analyses"
  let high_delta := delta.lookup "high_severity"
  let parts : List String :=
    (match analyses_delta with
     | some d =>
         if d ≠ 0 then
           ["Total analyses " ++ (if d > 0 then "increased" else "decreased")
             ++ " by " ++ formatNat d.natAbs ++ " compared to the prior window."]
         else []
     | none => [])
    ++
    (match high_delta with
     | some d =>
         if d ≠ 0 then
           ["High-severity incidents " ++ (if d > 0 then "rose" else "fell")
             ++ " by " ++ formatNat d.natAbs ++ "."]
         else []
     | none => [])
  joinSp parts

/-- `SummaryGenerator.build_fallback` from `generator.py`.  The final line
models Python `" ".join(part.strip() for part in parts if part)`. -/
def build_fallback (aggregated : AggregatedInsights) : String :=
  let total_events :=
    aggregated.severity_totals.low + aggregated.severity_totals.medium
      + aggregated.severity_totals.high
  if total_events = 0 then
    "No significant events were detected in the selected window."
  else
    let window_phrase :=
      if aggregated.window = .w24h then "the past 24 hours" else "the past 7 days"
    let part1 :=
      formatNat total_events ++ " notable moments were recorded over " ++ window_phrase ++ "."
    let part2 :=
      if aggregated.severity_totals.high > 0 then
        "High-severity events occurred " ++ formatNat aggregated.severity_totals.high
          ++ " time(s), alongside " ++ formatNat aggregated.severity_totals.medium
          ++ " medium and " ++ formatNat aggregated.severity_totals.low
          ++ " low severity occurrences."
      else
        "Most activity remained low impact (" ++ formatNat aggregated.severity_totals.low
          ++ " low, " ++ formatNat aggregated.severity_totals.medium ++ " medium severity)."
    let label_clause := _format_top_labels aggregated.top_labels
    let parts := [part1, part2] ++ (if label_clause ≠ "" then [label_clause] else [])
    let parts :=
      match aggregated.delta with
      | none => parts
      | some d =>
          if d ≠ [] then
            (let delta_bits := _format_delta d
             if delta_bits ≠ "" then parts ++ [delta_bits] else parts)
          else parts
    joinSp ((parts.filter (fun p => p ≠ "")).map pyStrip)

/-! ### Spec-side description of `build_fallback` (for the refinement claim)

`buildFallbackSpec` follows the claim's words: a fixed sentence when the
severity totals sum to zero; otherwise the total-count sentence, the
severity-mix sentence, an optional top-3-labels clause, then the
analyses-delta and high-severity-delta clauses, each present exactly when
its component exists and is nonzero, all joined with single spaces. -/

def totalCountSentence (a : AggregatedInsights) : String :=
  formatNat (a.severity_totals.low + a.severity_totals.medium + a.severity_totals.high)
    ++ " notable moments were recorded over "
    ++ (if a.window = .w24h then "the past 24 hours" else "the past 7 days") ++ "."

def severityMixSentence (a : AggregatedInsights) : String :=
  if a.severity_totals.high > 0 then
    "High-severity events occurred " ++ formatNat a.severity_totals.high
      ++ " time(s), alongside " ++ formatNat a.severity_totals.medium
      ++ " medium and " ++ formatNat a.severity_totals.low
      ++ " low severity occurrences."
  else
    "Most activity remained low impact (" ++ formatNat a.severity_totals.low
      ++ " low, " ++ formatNat a.severity_totals.medium ++ " medium severity)."

/-- The delta component for a key of the delta record, when present. -/
def deltaComponent (a : AggregatedInsights) (key : String) : Option Int :=
  match a.delta with
  | none => none
  | some d => d.lookup key

/-- The analyses-delta clause of the claim, present exactly when the
component exists and is nonzero: "Total analyses increased|decreased by N
compared to the prior window." -/
def analysesClauseOf (A : Option Int) : List String :=
  match A with
  | some dv =>
      if dv ≠ 0 then
        ["Total analyses " ++ (if dv > 0 then "increased" else "decreased")
          ++ " by " ++ formatNat dv.natAbs ++ " compared to the prior window."]
      else []
  | none => []

/-- The high-severity-delta clause of the claim, present exactly when the
component exists and is nonzero: "High-severity incidents rose|fell by N." -/
def highClauseOf (B : Option Int) : List String :=
  match B with
  | some dv =>
      if dv ≠ 0 then
        ["High-severity incidents " ++ (if dv > 0 then "rose" else "fell")
          ++ " by " ++ formatNat dv.natAbs ++ "."]
      else []
  | none => []

/-- Spec-side clause list for the non-empty case of the claim: the
total-count sentence, the severity-mix sentence, the optional top-3-labels
clause, then the two delta clauses. -/
def fallbackClauses (a : AggregatedInsights) : List String :=
  [totalCountSentence a, severityMixSentence a]
    ++ (if a.top_labels ≠ [] then [_format_top_labels a.top_labels] else [])
    ++ analysesClauseOf (deltaComponent a "analyses")
    ++ highClauseOf (deltaComponent a "high_severity")

/-- The claim's description of `build_fallback`. -/
def buildFallbackSpec (a : AggregatedInsights) : String :=
  if a.severity_totals.low + a.severity_totals.medium + a.severity_totals.high = 0 then
    "No significant events were detected in the selected window."
  else
    joinSp (fallbackClauses a)

/-- The source parts list of `build_fallback` in flattened form. -/
def sourceParts (a : AggregatedInsights) : List String :=
  [totalCountSentence a, severityMixSentence a]
    ++ (if _format_top_labels a.top_labels ≠ "" then [_format_top_labels a.top_labels]
        else [])
    ++ (match a.delta with
        | none => []
        | some d =>
            if d ≠ [] then
              (if _format_delta d ≠ "" then [_format_delta d] else [])
            else [])


/-- A string whose first character is not whitespace. -/
def HeadShape (s : String) : Prop := ∃ d t, s.data = d :: t ∧ ¬ wsChar d

/-- A string whose last character is not whitespace. -/
def LastShape (s : String) : Prop := ∃ m c, s.data = m ++ [c] ∧ ¬ wsChar c

/-- The three facts needed about every emitted clause. -/
def GoodClause (s : String) : Prop := s ≠ "" ∧ pyStrip s = s

/-! ## `cache.py`: sequential functional model

A single `get`/`set`/`get_or_set` call runs with an injected clock value
`now` (the source reads `datetime.now(timezone.utc)`), over the entries
dict.  A failing builder is an `Except.error`.  For a single caller the
per-key lock is uncontended: `async with lock` acquires it and releases it
on both normal return and exception, so the sequential model keeps no lock
state; the lock's concurrent contract is the interleaving model below. -/

structure CacheEntry (V : Type) where
  value : V
  expires_at : Option Int
  deriving DecidableEq, Inhabited

/-- `CacheEntry.is_valid`: `expires_at is None or expires_at > now`. -/
def CacheEntry.is_valid {V : Type} (e : CacheEntry V) (now : Int) : Bool :=
  match e.expires_at with
  | none => true
  | some t => t > now

/-- The mutable state of an `InsightCache` instance. -/
structure InsightCacheState (V : Type) where
  ttl_seconds : Int
  entries : List (String × CacheEntry V)

/-- `InsightCache.get`: return a present, unexpired entry; evict an expired
one and report a miss. -/
def InsightCache.get {V : Type} (s : InsightCacheState V) (now : Int)
    (key : String) : InsightCacheState V × Option (CacheEntry V) :=
  match s.entries.lookup key with
  | none => (s, none)
  | some entry =>
      if entry.is_valid now then (s, some entry)
      else ({ s with entries := s.entries.filter (fun kv => kv.1 ≠ key) }, none)

/-- `InsightCache._expiry`: immediate expiry when `ttl_seconds <= 0`. -/
def InsightCache.expiry {V : Type} (s : InsightCacheState V) (now : Int) :
    Option Int :=
  if s.ttl_seconds ≤ 0 then some now else some (now + s.ttl_seconds)

/-- `InsightCache.set`; `expires_at = none` models the absent keyword
argument, in which case the expiry is computed from the TTL. -/
def InsightCache.set {V : Type} (s : InsightCacheState V) (now : Int)
    (key : String) (value : V) (expires_at : Option Int) :
    InsightCacheState V × CacheEntry V :=
  let expiry :=
    match expires_at with
    | none => InsightCache.expiry s now
    | some e => some e
  let entry : CacheEntry V := ⟨value, expiry⟩
  ({ s with entries := (key, entry) :: s.entries.filter (fun kv => kv.1 ≠ key) },
    entry)

/-- `InsightCache.invalidate`: clear one key, or everything. -/
def InsightCache.invalidate {V : Type} (s : InsightCacheState V)
    (key : Option String) : InsightCacheState V :=
  match key with
  | none => { s with entries := [] }
  | some k => { s with entries := s.entries.filter (fun kv => kv.1 ≠ k) }

/-- `InsightCache.get_or_set` for a single caller: get, then under the
per-key lock re-check get, then build and store.  A raising factory
propagates and stores nothing. -/
def InsightCache.get_or_set {V E : Type} (s : InsightCacheState V) (now : Int)
    (key : String) (factory : Except E V) :
    InsightCacheState V × Except E (CacheEntry V) :=
  match InsightCache.get s now key with
  | (s1, some cached) => (s1, .ok cached)
  | (s1, none) =>
      match InsightCache.get s1 now key with
      | (s2, some cached) => (s2, .ok cached)
      | (s2, none) =>
          match factory with
          | .error e => (s2, .error e)
          | .ok value =>
              let pair := InsightCache.set s2 now key value none
              (pair.1, .ok pair.2)

/-! ## `cache.py`: interleaving model of concurrent `get_or_set`

Cooperative asyncio concurrency: each task runs atomically between await
points.  The atomic segments of `get_or_set` are: the first `get`; the
lock acquisition; the re-check `get` (running on to the builder start when
it misses, since the task still holds the lock); the builder completing
and `set` storing the entry and the `async with` releasing the lock.  All
callers share one key, so the state holds a single entry slot and lock.
The builder is instrumented with a call counter: its `k`-th invocation
returns value `k`.  The race happens at one instant `now`. -/

inductive TaskPC
  | start
  | waiting
  | locked
  | building (pending : Nat)
  | done (v : Nat)
  deriving DecidableEq

/-- Whether a caller's `get_or_set` has returned, and its result value. -/
def TaskPC.isDone : TaskPC → Bool
  | .done _ => true
  | _ => false

structure RaceState (n : Nat) where
  entry : Option (CacheEntry Nat)
  lock : Option (Fin n)
  buildCount : Nat
  tasks : Fin n → TaskPC

/-- One atomic segment of task `i`. -/
def raceStep (ttl now : Int) {n : Nat} (s : RaceState n) (i : Fin n) :
    RaceState n :=
  match s.tasks i with
  | .start =>
      match s.entry with
      | some e =>
          if e.is_valid now then
            { s with tasks := Function.update s.tasks i (.done e.value) }
          else
            { s with entry := none, tasks := Function.update s.tasks i .waiting }
      | none => { s with tasks := Function.update s.tasks i .waiting }
  | .waiting =>
      match s.lock with
      | none => { s with lock := some i, tasks := Function.update s.tasks i .locked }
      | some _ => s
  | .locked =>
      match s.entry with
      | some e =>
          if e.is_valid now then
            { s with lock := none, tasks := Function.update s.tasks i (.done e.value) }
          else
            { s with entry := none, buildCount := s.buildCount + 1,
                     tasks := Function.update s.tasks i (.building s.buildCount) }
      | none =>
          { s with buildCount := s.buildCount + 1,
                   tasks := Function.update s.tasks i (.building s.buildCount) }
  | .building v =>
      { s with
          entry := some ⟨v, if ttl ≤ 0 then some now else some (now + ttl)⟩,
          lock := none,
          tasks := Function.update s.tasks i (.done v) }
  | .done _ => s

/-- Run a schedule (arbitrary interleaving of the callers). -/
def raceRun (ttl now : Int) {n : Nat} (s : RaceState n) (sched : List (Fin n)) :
    RaceState n :=
  sched.foldl (raceStep ttl now) s

/-- All callers about to invoke `get_or_set` on a key holding `entry0`. -/
def raceInit (n : Nat) (entry0 : Option (CacheEntry Nat)) : RaceState n :=
  { entry := entry0, lock := none, buildCount := 0, tasks := fun _ => .start }

/-- Claim C1 as stated: for every TTL, on an initially empty-or-expired
key, any fully completed race of `n ≥ 2` concurrent callers runs the
builder exactly once and every caller receives the first build's value. -/
def C1Claim : Prop :=
  ∀ (n : Nat) (ttl now : Int) (entry0 : Option (CacheEntry Nat)),
    (entry0 = none ∨ ∀ e, entry0 = some e → e.is_valid now = false) →
    ∀ sched : List (Fin n),
      (∀ i, ((raceRun ttl now (raceInit n entry0) sched).tasks i).isDone) →
      2 ≤ n →
      (raceRun ttl now (raceInit n entry0) sched).buildCount = 1 ∧
      ∀ i, (raceRun ttl now (raceInit n entry0) sched).tasks i = .done 0

/-- The data invariant carried through every interleaving when the TTL is
positive and the key starts empty or expired (the lock discipline is
`LockInv` below). -/
def RaceInv (now : Int) {n : Nat} (s : RaceState n) : Prop :=
  (∀ e, s.entry = some e →
      e.is_valid now = false ∨
        (e.value = 0 ∧ e.is_valid now = true ∧ s.buildCount = 1))
  ∧ s.buildCount ≤ 1
  ∧ (∀ i v, s.tasks i = .building v → v = 0 ∧ s.buildCount = 1 ∧ s.entry = none)
  ∧ (∀ i v, s.tasks i = .done v → v = 0)
  ∧ (s.buildCount = 1 →
      (∃ i v, s.tasks i = .building v) ∨
        (∃ e, s.entry = some e ∧ e.is_valid now = true ∧ e.value = 0))
  ∧ (s.buildCount = 0 → ∀ i v, s.tasks i ≠ .done v)

/-- The lock discipline alone, for the mutual-exclusion half (any TTL). -/
def LockInv {n : Nat} (s : RaceState n) : Prop :=
  ∀ i, (s.tasks i = .locked ∨ ∃ v, s.tasks i = .building v) → s.lock = some i

/-! ## `aggregator.py`

Timestamps are UTC instants in seconds.  `_truncate_datetime` zeroes the
time-of-day for daily quanta and minutes/seconds for hourly quanta, which
on the instant line is flooring to a multiple of 86400 resp. 3600 seconds
(`emod` floors toward negative infinity, matching calendar truncation for
pre-epoch instants too).  `_as_utc` is the identity on instants.  Rows are
read from an abstract store list; the SQL query filters
`created_at >= since` (and `< until` when given) and orders ascending. -/

inductive Severity
  | low
  | medium
  | high
  deriving DecidableEq, Inhabited

/-- `_SEVERITY_ORDER` from `aggregator.py`. -/
def _SEVERITY_ORDER : List (String × Severity) :=
  [("low", .low), ("medium", .medium), ("mid", .medium), ("med", .medium),
   ("high", .high), ("severe", .high)]

/-- `_SEVERITY_WEIGHT` from `aggregator.py`. -/
def _SEVERITY_WEIGHT : Severity → Nat
  | .low => 0
  | .medium => 1
  | .high => 2

def _MAX_LABEL_LENGTH : Nat := 80

/-- A moment dict as stored on an analysis row: `.get` of a missing key is
`None`, hence the `Option` fields. -/
structure Moment where
  label : Option String
  severity : Option String
  deriving DecidableEq, Inhabited

/-- An `AnalysisModel` row as the aggregator reads it. -/
structure AnalysisRow where
  created_at : Int
  moments : List Moment
  deriving DecidableEq, Inhabited

/-- `_normalize_severity` from `aggregator.py`. -/
def _normalize_severity (value : Option String) : Option Severity :=
  match value with
  | none => none
  | some v => _SEVERITY_ORDER.lookup (pyLower (pyStrip v))

/-- `_sanitize_label` from `aggregator.py`: `(raw or "unknown").strip() or
"unknown"`, then `.title()`, truncated to 80 characters and right-stripped. -/
def _sanitize_label (raw : Option String) : String :=
  let value :=
    let v0 := match raw with
      | none => "unknown"
      | some r => if r = "" then "unknown" else r
    let v1 := pyStrip v0
    if v1 = "" then "unknown" else v1
  let normalized := pyTitle value
  if normalized.length ≤ _MAX_LABEL_LENGTH then normalized
  else pyRstrip ⟨normalized.data.take _MAX_LABEL_LENGTH⟩

/-- `_truncate_datetime` from `aggregator.py` on instants. -/
def _truncate_datetime (value : Int) (quantum : Int) : Int :=
  if quantum ≥ 86400 then value - value.emod 86400
  else if quantum ≥ 3600 then value - value.emod 3600
  else value

/-- `_align_start` from `aggregator.py`. -/
def _align_start (current : Int) (bucket_size : Int) (bucket_count : Nat) : Int :=
  _truncate_datetime current bucket_size - bucket_size * ((bucket_count : Int) - 1)

/-- The bucket-edge list built in `aggregate`. -/
def bucketEdges (bucket_start bucket_size : Int) (bucket_count : Nat) : List Int :=
  (List.range bucket_count).map (fun (i : Nat) => bucket_start + (i : Int) * bucket_size)

/-- `_bucket_for` from `aggregator.py` (`_as_utc` is the identity). -/
def _bucket_for (created_at : Int) (bucket_size : Int)
    (bucket_edges : List Int) : Option Int :=
  let ts := _truncate_datetime created_at bucket_size
  if bucket_edges.contains ts then some ts else none

/-- `_window_duration` from `aggregator.py` (total on the validated
window type). -/
def _window_duration : InsightWindow → Int
  | .w24h => 86400
  | .w7d => 604800

def bucketCountOf (window : InsightWindow) : Nat :=
  if window = .w24h then 24 else 7

def bucketSizeOf (window : InsightWindow) : Int :=
  if window = .w24h then 3600 else 86400

/-- The first bucket edge used by `aggregate` for a window at `now`. -/
def firstEdge (window : InsightWindow) (now : Int) : Int :=
  _align_start now (bucketSizeOf window) (bucketCountOf window)

/-- Ordered insertion (ascending by creation time). -/
def insertRow (r : AnalysisRow) : List AnalysisRow → List AnalysisRow
  | [] => [r]
  | x :: xs =>
      if x.created_at ≤ r.created_at then x :: insertRow r xs
      else r :: x :: xs

/-- `ORDER BY created_at ASC` of the row query. -/
def sortByCreated : List AnalysisRow → List AnalysisRow
  | [] => []
  | x :: xs => insertRow x (sortByCreated xs)

/-- `_fetch_rows` from `aggregator.py`: `created_at >= since`, plus
`created_at < until` only when an upper bound is supplied, ordered
ascending. -/
def _fetch_rows (store : List AnalysisRow) (since : Int)
    (until_ : Option Int) : List AnalysisRow :=
  sortByCreated (store.filter (fun row =>
    decide (since ≤ row.created_at) &&
      (match until_ with
       | none => true
       | some u => decide (row.created_at < u))))

/-- One per-bucket accumulator (`series_map[edge]`). -/
structure BucketData where
  total : Nat
  severity : InsightSeverityTotals
  deriving DecidableEq, Inhabited

def bumpSev (sc : InsightSeverityTotals) (sv : Severity) : InsightSeverityTotals :=
  match sv with
  | .low => { sc with low := sc.low + 1 }
  | .medium => { sc with medium := sc.medium + 1 }
  | .high => { sc with high := sc.high + 1 }

/-- One `label_counts[key]` accumulator.  The float weight only ever
accumulates integer severity weights, so it is exactly a natural. -/
structure LabelData where
  label : String
  count : Nat
  weight : Nat
  deriving DecidableEq, Inhabited

/-- The `label_counts` dict update: first occurrence inserts at the end
(dict insertion order), later ones update in place. -/
def labelBump (lc : List (String × LabelData)) (key : String) (label : String)
    (w : Nat) : List (String × LabelData) :=
  match lc.lookup key with
  | none => lc ++ [(key, { label := label, count := 1, weight := w })]
  | some _ =>
      lc.map (fun kv =>
        if kv.1 = key then
          (kv.1, { kv.2 with count := kv.2.count + 1, weight := kv.2.weight + w })
        else kv)

/-- The loop state of `aggregate` (the dict over the fixed edge set is a
function on instants). -/
structure AggState where
  seriesMap : Int → BucketData
  severity_totals : InsightSeverityTotals
  label_counts : List (String × LabelData)
  analyses : Nat
  high_analyses : Nat

/-- The body of the inner `for moment in row.moments` loop, on the state
plus the `saw_high` flag, with `b` the row's bucket. -/
def momentStep (b : Int) (st : AggState × Bool) (m : Moment) : AggState × Bool :=
  let s := st.1
  let saw_high := st.2
  match _normalize_severity m.severity with
  | none => (s, saw_high)
  | some sv =>
      let s1 := { s with
        severity_totals := bumpSev s.severity_totals sv,
        seriesMap := fun e =>
          if e = b then
            { s.seriesMap b with severity := bumpSev (s.seriesMap b).severity sv }
          else s.seriesMap e }
      let label := _sanitize_label m.label
      let key := pyLower label
      let s2 := { s1 with
        label_counts := labelBump s1.label_counts key label (_SEVERITY_WEIGHT sv) }
      (s2, saw_high || decide (sv = .high))

/-- The body of the outer `for row in rows` loop.  A row whose truncated
timestamp matches no edge is skipped entirely (`continue` precedes the
`analyses` increment). -/
def rowStep (bucket_size : Int) (bucket_edges : List Int) (s : AggState)
    (row : AnalysisRow) : AggState :=
  match _bucket_for row.created_at bucket_size bucket_edges with
  | none => s
  | some b =>
      let sA := { s with analyses := s.analyses + 1 }
      let res := row.moments.foldl (momentStep b) (sA, false)
      let sB := res.1
      let sC :=
        if res.2 then { sB with high_analyses := sB.high_analyses + 1 } else sB
      { sC with seriesMap := fun e =>
          if e = b then
            { sC.seriesMap e with total := (sC.seriesMap e).total + 1 }
          else sC.seriesMap e }

/-- Lexicographic code-point comparison of character lists. -/
def charListLt : List Char → List Char → Bool
  | [], [] => false
  | [], _ :: _ => true
  | _ :: _, [] => false
  | a :: as, b :: bs =>
      if a < b then true else if b < a then false else charListLt as bs

/-- Python string `<` (lexicographic by code point). -/
def pyStrLt (a b : String) : Bool := charListLt a.data b.data

/-- Python string `<=`, as the tuple sort key comparison uses. -/
def pyStrLe (a b : String) : Bool := ! pyStrLt b a

/-- The sort key `(-count, label)` of `_build_top_labels`, as a `≤` test. -/
def topLabelLE (a b : InsightTopLabel) : Bool :=
  decide (b.count < a.count) ||
    (decide (a.count = b.count) && pyStrLe a.label b.label)

def insertTopLabel (x : InsightTopLabel) :
    List InsightTopLabel → List InsightTopLabel
  | [] => [x]
  | y :: ys =>
      if topLabelLE x y then x :: y :: ys else y :: insertTopLabel x ys

def sortTopLabels : List InsightTopLabel → List InsightTopLabel
  | [] => []
  | x :: xs => insertTopLabel x (sortTopLabels xs)

/-- `_build_top_labels` from `aggregator.py`. -/
def _build_top_labels (label_counts : List (String × LabelData)) :
    List InsightTopLabel :=
  let items := label_counts.map (fun kv =>
    let cnt : Nat := kv.2.count
    let average : Option ℚ :=
      if cnt > 0 then some ((kv.2.weight : ℚ) / (cnt : ℚ)) else none
    ({ label := kv.2.label, count := cnt, avg_severity := average } :
      InsightTopLabel))
  (sortTopLabels items).take 5

/-- `_count_high` from `aggregator.py`: rows with at least one
high-normalising moment (the inner loop breaks after the first). -/
def _count_high (rows : List AnalysisRow) : Nat :=
  rows.foldl (fun total row =>
    if row.moments.any (fun m => _normalize_severity m.severity = some .high)
    then total + 1 else total) 0

/-- `InsightAggregator.aggregate` from `aggregator.py`, over an abstract
row store and an injected reference instant. -/
def aggregate (store : List AnalysisRow) (window : InsightWindow)
    (now : Int) : AggregatedInsights :=
  let current := now
  let duration := _window_duration window
  let bucket_count := bucketCountOf window
  let bucket_size := bucketSizeOf window
  let bucket_start := _align_start current bucket_size bucket_count
  let bucket_edges := bucketEdges bucket_start bucket_size bucket_count
  let rows := _fetch_rows store bucket_start none
  let previous_rows := _fetch_rows store (bucket_start - duration) (some bucket_start)
  let init : AggState := {
    seriesMap := fun _ => { total := 0, severity := ⟨0, 0, 0⟩ },
    severity_totals := ⟨0, 0, 0⟩,
    label_counts := [], analyses := 0, high_analyses := 0 }
  let final := rows.foldl (rowStep bucket_size bucket_edges) init
  let top_labels := _build_top_labels final.label_counts
  let series := bucket_edges.map (fun edge =>
    ({ bucket_start := edge, total := (final.seriesMap edge).total,
       severity := (final.seriesMap edge).severity } : InsightSeriesBucket))
  let previous_analyses := previous_rows.length
  let previous_high := _count_high previous_rows
  let delta : Option (List (String × Int)) :=
    if final.analyses ≠ 0 ∨ previous_analyses ≠ 0 then
      some [("analyses", (final.analyses : Int) - (previous_analyses : Int)),
            ("high_severity", (final.high_analyses : Int) - (previous_high : Int))]
    else none
  { window := window, generated_at := current,
    severity_totals := final.severity_totals, series := series,
    top_labels := top_labels, analyses := final.analyses,
    high_severity_analyses := final.high_analyses, delta := delta }

/-- Claim C4 as stated: every record fetched into the current set counts
toward `analyses` (records without a matching bucket edge included). -/
def C4Claim : Prop :=
  ∀ (store : List AnalysisRow) (window : InsightWindow) (now : Int),
    (aggregate store window now).analyses
      = (_fetch_rows store (firstEdge window now) none).length

/-- Claim C5 as stated: the current set is exactly the records created in
`[first_edge, now]` and the previous set exactly those in
`[first_edge - duration, first_edge)`. -/
def C5Claim : Prop :=
  ∀ (store : List AnalysisRow) (window : InsightWindow) (now : Int),
    (∀ r, r ∈ _fetch_rows store (firstEdge window now) none ↔
      (r ∈ store ∧ firstEdge window now ≤ r.created_at ∧ r.created_at ≤ now)) ∧
    (∀ r, r ∈ _fetch_rows store (firstEdge window now - _window_duration window)
        (some (firstEdge window now)) ↔
      (r ∈ store ∧ firstEdge window now - _window_duration window ≤ r.created_at
        ∧ r.created_at < firstEdge window now))

/-! ## `service.py` and `share_store.py`

`get_shared_snapshot` is modelled functionally over the outcomes of its
effectful sub-calls: the stored record's window, the result of parsing the
persisted payload (`InsightResponse.model_validate`, failing with a
`ValidationError`), the live `get_snapshot` outcome, and the
`update_payload` outcome.  `create_share` is modelled with an injected
token supply (for `secrets.token_urlsafe`), an injected salted-hash
function (for `_hash_token`) and an injected origin extractor (for
`urlsplit`); the share store state is the list of persisted rows. -/

/-- The exceptions `get_shared_snapshot` can surface (besides a missing
token, which precedes everything modelled here): a `ValueError`
(validation), the re-raised live-build exception, or a propagated
`update_payload` failure. -/
inductive SharedErr (L U : Type)
  | valueError
  | liveError (e : L)
  | updateError (u : U)
  deriving DecidableEq

/-- `InsightService.get_shared_snapshot` after the record lookup: validate
the optional window against the record, attempt a live refresh, fall back
to the parsed persisted payload when the live build raises (re-raising the
live exception when parsing fails), and write the refreshed payload back
(unguarded) before returning it. -/
def get_shared_snapshot {S L U : Type} (record_window : String)
    (payload_parse : Except Unit S) (window : Option String)
    (live : Except L S) (update : Except U Unit) :
    Except (SharedErr L U) S :=
  let wv : Except Unit String :=
    match window with
    | none => .ok record_window
    | some wstr =>
        if wstr = "" then .ok record_window else validate_window (some wstr)
  match wv with
  | .error _ => .error .valueError
  | .ok window_override =>
      if window_override ≠ record_window then .error .valueError
      else
        match live with
        | .error exc =>
            (match payload_parse with
             | .ok snap => .ok snap
             | .error _ => .error (.liveError exc))
        | .ok snapshot =>
            match update with
            | .error u => .error (.updateError u)
            | .ok _ => .ok snapshot

/-- Claim C7 as stated: after a successful live refresh the write-back is
best-effort — `get_shared_snapshot` returns the fresh snapshot whatever
`update_payload` does. -/
def C7Claim : Prop :=
  ∀ (S L U : Type) (record_window : String) (payload_parse : Except Unit S)
    (snapshot : S) (update : Except U Unit),
    get_shared_snapshot (L := L) record_window payload_parse none
      (Except.ok snapshot) update = Except.ok snapshot

/-- A persisted `insight_shares` row (`InsightShareModel`), keyed by the
salted token hash; the payload type is abstract. -/
structure ShareRow (P : Type) where
  token_hash : String
  window : String
  payload : P
  expires_at : Option Int
  deriving DecidableEq

/-- `InsightShareStore.create_share`: mint tokens from the supply, retry
on a primary-key collision, give up with a `RuntimeError` when the fifth
attempt collides.  Returns the plaintext token, the new row and the store
rows after the insert.  (An exhausted supply models no reachable code
path.) -/
def create_share_store {P : Type} (hashToken : String → String) :
    List String → Nat → List (ShareRow P) → String → P → Option Int →
      Except Unit (String × ShareRow P × List (ShareRow P))
  | [], _, _, _, _, _ => .error ()
  | t :: rest, attempt, rows, window, payload, exp =>
      let token_hash := hashToken t
      if rows.any (fun r => r.token_hash = token_hash) then
        let attempt2 := attempt + 1
        if attempt2 ≥ 5 then .error ()
        else create_share_store hashToken rest attempt2 rows window payload exp
      else
        let record : ShareRow P := ⟨token_hash, window, payload, exp⟩
        .ok (t, record, rows ++ [record])

/-- `InsightService._build_share_url`: `RuntimeError` when the base URL is
unset or empty; otherwise origin extraction (injected) plus the share
path. -/
def _build_share_url (urlOrigin : String → String)
    (share_base_url : Option String) (token : String) : Except Unit String :=
  match share_base_url with
  | none => .error ()
  | some base =>
      if base = "" then .error ()
      else .ok (urlOrigin base ++ "/share/" ++ token)

/-- `InsightService.create_share` given an already-built snapshot: validate
the window, persist the share row, then build the URL.  The function also
returns the final store rows: a `RuntimeError` raised by
`_build_share_url` does not undo the insert already committed. -/
def create_share_service {P : Type} (hashToken urlOrigin : String → String)
    (share_base_url : Option String) (tokens : List String)
    (rows : List (ShareRow P)) (window : Option String) (payload : P)
    (snapshot_cache_expires : Option Int) (expires_at : Option Int) :
    Except Unit (String × String) × List (ShareRow P) :=
  match validate_window window with
  | .error _ => (.error (), rows)
  | .ok window_value =>
      match create_share_store hashToken tokens 0 rows window_value payload
          (match expires_at with
           | some e => some e
           | none => snapshot_cache_expires) with
      | .error _ => (.error (), rows)
      | .ok (token, _record, rows2) =>
          match _build_share_url urlOrigin share_base_url token with
          | .error _ => (.error (), rows2)
          | .ok url => (.ok (token, url), rows2)

/-! ## String lemmas: `strip` is the identity on the emitted clauses -/

theorem stripList_eq_self (d c : Char) (m : List Char)
    (h1 : ¬ wsChar d) (h2 : ¬ wsChar c) :
    stripList (d :: (m ++ [c])) = d :: (m ++ [c]) := by
  unfold stripList
  rw [List.dropWhile_cons]
  simp only [h1, if_neg, Bool.false_eq_true, not_false_iff, ite_false]
  have : (d :: (m ++ [c])).reverse = c :: (m.reverse ++ [d]) := by
    simp
  rw [this, List.dropWhile_cons]
  simp only [h2, Bool.false_eq_true, ite_false]
  simp

theorem not_ws_digitChar (n : Nat) (h : n < 10) : ¬ wsChar (digitChar n) := by
  revert h
  revert n
  decide

theorem formatNatGo_shape (fuel : Nat) :
    ∀ (n : Nat) (acc : List Char), n < 10 ^ (fuel + 1) →
      ∃ d t, formatNatGo (fuel + 1) n acc = d :: t
        ∧ ∃ k, k < 10 ∧ d = digitChar k := by
  induction fuel with
  | zero =>
      intro n acc hn
      have hn10 : n < 10 := by
        have : (10 : Nat) ^ (0 + 1) = 10 := by norm_num
        omega
      unfold formatNatGo
      rw [if_pos hn10]
      exact ⟨digitChar n, acc, rfl, n, hn10, rfl⟩
  | succ fuel ih =>
      intro n acc hn
      unfold formatNatGo
      by_cases h : n < 10
      · rw [if_pos h]
        exact ⟨digitChar n, acc, rfl, n, h, rfl⟩
      · rw [if_neg h]
        apply ih
        have h10 : 0 < 10 := by omega
        rw [Nat.div_lt_iff_lt_mul h10]
        calc n < 10 ^ (fuel + 1 + 1) := hn
          _ = 10 ^ (fuel + 1) * 10 := by ring

theorem formatNat_shape (n : Nat) :
    ∃ d t, (formatNat n).data = d :: t ∧ ¬ wsChar d := by
  have hn : n < 10 ^ (n + 1) := by
    have h1 : n < 10 ^ n := Nat.lt_pow_self (by omega) n
    have h2 : 10 ^ n ≤ 10 ^ (n + 1) := Nat.pow_le_pow_right (by omega) (by omega)
    omega
  obtain ⟨d, t, heq, k, hk, hd⟩ := formatNatGo_shape n n [] hn
  exact ⟨d, t, heq, hd ▸ not_ws_digitChar k hk⟩

theorem stripList_singleton (d : Char) (h : ¬ wsChar d) : stripList [d] = [d] := by
  unfold stripList
  rw [List.dropWhile_cons]
  simp [h]

theorem pyStrip_eq_self_of (s : String) (h1 : HeadShape s) (h2 : LastShape s) :
    pyStrip s = s := by
  obtain ⟨d, t, hdt, hd⟩ := h1
  obtain ⟨m, c, hmc, hc⟩ := h2
  cases s with
  | mk data =>
    simp only [String.data] at hdt hmc
    simp only [pyStrip]
    subst hdt
    cases m with
    | nil =>
        simp only [List.nil_append] at hmc
        cases hmc
        rw [stripList_singleton d hd]
    | cons x m2 =>
        have hx : d = x ∧ t = m2 ++ [c] := by simpa using hmc
        rw [hx.2, stripList_eq_self d c m2 hd hc]

theorem headShape_append (a b : String) (h : HeadShape a) : HeadShape (a ++ b) := by
  obtain ⟨d, t, hdt, hd⟩ := h
  refine ⟨d, t ++ b.data, ?_, hd⟩
  show (a ++ b).data = _
  rw [String.data_append, hdt]
  rfl

theorem lastShape_append (a b : String) (h : LastShape b) : LastShape (a ++ b) := by
  obtain ⟨m, c, hmc, hc⟩ := h
  refine ⟨a.data ++ m, c, ?_, hc⟩
  show (a ++ b).data = _
  rw [String.data_append, hmc, List.append_assoc]

theorem lastShape_lit (s : String) (hne : s.data ≠ [])
    (h : ¬ wsChar (s.data.getLast hne)) : LastShape s :=
  ⟨s.data.dropLast, s.data.getLast hne, (List.dropLast_append_getLast hne).symm, h⟩

theorem headShape_lit (s : String) (hne : s.data ≠ [])
    (h : ¬ wsChar (s.data.head hne)) : HeadShape s :=
  ⟨s.data.head hne, s.data.tail, (List.head_cons_tail _ hne).symm, h⟩

theorem headShape_formatNat (n : Nat) : HeadShape (formatNat n) := formatNat_shape n

theorem ne_empty_of_headShape (s : String) (h : HeadShape s) : s ≠ "" := by
  obtain ⟨d, t, hdt, _⟩ := h
  intro he
  rw [he] at hdt
  simp at hdt

theorem goodClause_of (s : String) (h1 : HeadShape s) (h2 : LastShape s) :
    GoodClause s :=
  ⟨ne_empty_of_headShape s h1, pyStrip_eq_self_of s h1 h2⟩

theorem joinSp_cons_ne (x : String) (l : List String) (h : l ≠ []) :
    joinSp (x :: l) = x ++ " " ++ joinSp l := by
  cases l with
  | nil => exact absurd rfl h
  | cons y ys => rfl

theorem joinSp_pair (x y : String) : joinSp ([x] ++ [y]) = x ++ " " ++ y := rfl

theorem joinSp_merge (xs : List String) (a b : String) :
    joinSp (xs ++ [a ++ " " ++ b]) = joinSp (xs ++ [a, b]) := by
  induction xs with
  | nil =>
      show joinSp [a ++ " " ++ b] = joinSp [a, b]
      simp [joinSp]
  | cons x xs ih =>
      rw [List.cons_append, List.cons_append,
        joinSp_cons_ne x _ (by simp), joinSp_cons_ne x _ (by simp), ih]

theorem filter_map_strip (parts : List String)
    (h : ∀ p ∈ parts, GoodClause p) :
    (parts.filter (fun p => p ≠ "")).map pyStrip = parts := by
  induction parts with
  | nil => rfl
  | cons x xs ih =>
      have hx := h x (by simp)
      rw [List.filter_cons]
      have hd : (decide (x ≠ "")) = true := by simp [hx.1]
      rw [hd]
      simp only [if_pos, List.map_cons, hx.2]
      rw [ih (fun p hp => h p (by simp [hp]))]

/-! ## Clause facts for the generator -/

theorem format_delta_parts (d : List (String × Int)) :
    _format_delta d =
      joinSp (analysesClauseOf (d.lookup "analyses")
        ++ highClauseOf (d.lookup "high_severity")) := rfl

theorem goodClause_totalCount (a : AggregatedInsights) :
    GoodClause (totalCountSentence a) := by
  apply goodClause_of
  · exact headShape_append _ _ (headShape_append _ _
      (headShape_append _ _ (headShape_formatNat _)))
  · exact lastShape_append _ _ (lastShape_lit "." (by decide) (by decide))

theorem goodClause_mix (a : AggregatedInsights) :
    GoodClause (severityMixSentence a) := by
  unfold severityMixSentence
  by_cases h : a.severity_totals.high > 0
  · rw [if_pos h]
    apply goodClause_of
    · exact headShape_append _ _ (headShape_append _ _ (headShape_append _ _
        (headShape_append _ _ (headShape_append _ _ (headShape_append _ _
          (headShape_lit "High-severity events occurred " (by decide) (by decide)))))))
    · exact lastShape_append _ _
        (lastShape_lit " low severity occurrences." (by decide) (by decide))
  · rw [if_neg h]
    apply goodClause_of
    · exact headShape_append _ _ (headShape_append _ _ (headShape_append _ _
        (headShape_append _ _
          (headShape_lit "Most activity remained low impact (" (by decide) (by decide)))))
    · exact lastShape_append _ _
        (lastShape_lit " medium severity)." (by decide) (by decide))

theorem format_top_labels_nil : _format_top_labels [] = "" := rfl

theorem goodClause_top_labels (tl : List InsightTopLabel) (h : tl ≠ []) :
    GoodClause (_format_top_labels tl) := by
  unfold _format_top_labels
  rw [if_neg h]
  have hne : (tl.take 3).map (fun l => l.label) ≠ [] := by
    simp [h]
  cases hn : (tl.take 3).map (fun l => l.label) with
  | nil => exact absurd hn hne
  | cons x xs =>
      cases xs with
      | nil =>
          apply goodClause_of
          · exact headShape_append _ _ (headShape_append _ _
              (headShape_lit "Dominant activity: " (by decide) (by decide)))
          · exact lastShape_append _ _ (lastShape_lit "." (by decide) (by decide))
      | cons y ys =>
          apply goodClause_of
          · exact headShape_append _ _ (headShape_append _ _ (headShape_append _ _
              (headShape_append _ _
                (headShape_lit "Dominant activity: " (by decide) (by decide)))))
          · exact lastShape_append _ _ (lastShape_lit "." (by decide) (by decide))

theorem goodClause_analyses_sentence (dv : Int) :
    GoodClause ("Total analyses " ++ (if dv > 0 then "increased" else "decreased")
      ++ " by " ++ formatNat dv.natAbs ++ " compared to the prior window.") := by
  apply goodClause_of
  · exact headShape_append _ _ (headShape_append _ _ (headShape_append _ _
      (headShape_append _ _ (headShape_lit "Total analyses " (by decide) (by decide)))))
  · exact lastShape_append _ _
      (lastShape_lit " compared to the prior window." (by decide) (by decide))

theorem goodClause_high_sentence (dv : Int) :
    GoodClause ("High-severity incidents " ++ (if dv > 0 then "rose" else "fell")
      ++ " by " ++ formatNat dv.natAbs ++ ".") := by
  apply goodClause_of
  · exact headShape_append _ _ (headShape_append _ _ (headShape_append _ _
      (headShape_append _ _
        (headShape_lit "High-severity incidents " (by decide) (by decide)))))
  · exact lastShape_append _ _ (lastShape_lit "." (by decide) (by decide))

theorem goodClause_join2 (x y : String)
    (hhx : HeadShape x) (hly : LastShape y) :
    GoodClause (x ++ " " ++ y) :=
  goodClause_of _ (headShape_append _ _ (headShape_append _ _ hhx))
    (lastShape_append _ _ hly)

theorem headShape_analyses_sentence (dv : Int) :
    HeadShape ("Total analyses " ++ (if dv > 0 then "increased" else "decreased")
      ++ " by " ++ formatNat dv.natAbs ++ " compared to the prior window.") :=
  headShape_append _ _ (headShape_append _ _ (headShape_append _ _
    (headShape_append _ _ (headShape_lit "Total analyses " (by decide) (by decide)))))

theorem lastShape_high_sentence (dv : Int) :
    LastShape ("High-severity incidents " ++ (if dv > 0 then "rose" else "fell")
      ++ " by " ++ formatNat dv.natAbs ++ ".") :=
  lastShape_append _ _ (lastShape_lit "." (by decide) (by decide))

theorem parts_reshape (base : List String) (delta : Option (List (String × Int))) :
    (match delta with
     | none => base
     | some d =>
         if d ≠ [] then
           (if _format_delta d ≠ "" then base ++ [_format_delta d] else base)
         else base)
    = base ++ (match delta with
     | none => []
     | some d =>
         if d ≠ [] then
           (if _format_delta d ≠ "" then [_format_delta d] else [])
         else []) := by
  cases delta with
  | none => simp
  | some d =>
      by_cases h1 : d = [] <;> by_cases h2 : _format_delta d = "" <;> simp [h1, h2]

theorem build_fallback_as_parts (a : AggregatedInsights)
    (h0 : ¬ (a.severity_totals.low + a.severity_totals.medium
      + a.severity_totals.high = 0)) :
    build_fallback a =
      joinSp (((sourceParts a).filter (fun p => p ≠ "")).map pyStrip) := by
  unfold build_fallback sourceParts totalCountSentence severityMixSentence
  rw [if_neg h0]
  simp only []
  rw [parts_reshape]

theorem analysesClauseOf_none : analysesClauseOf none = [] := rfl

theorem analysesClauseOf_some (dv : Int) :
    analysesClauseOf (some dv) =
      if dv ≠ 0 then
        ["Total analyses " ++ (if dv > 0 then "increased" else "decreased")
          ++ " by " ++ formatNat dv.natAbs ++ " compared to the prior window."]
      else [] := rfl

theorem highClauseOf_none : highClauseOf none = [] := rfl

theorem highClauseOf_some (dv : Int) :
    highClauseOf (some dv) =
      if dv ≠ 0 then
        ["High-severity incidents " ++ (if dv > 0 then "rose" else "fell")
          ++ " by " ++ formatNat dv.natAbs ++ "."]
      else [] := rfl

theorem goodClause_clausesOf (A B : Option Int)
    (h : joinSp (analysesClauseOf A ++ highClauseOf B) ≠ "") :
    GoodClause (joinSp (analysesClauseOf A ++ highClauseOf B)) := by
  cases A with
  | none =>
      cases B with
      | none =>
          simp only [analysesClauseOf_none, highClauseOf_none] at h
          exact absurd rfl h
      | some dv =>
          simp only [analysesClauseOf_none, highClauseOf_some,
            List.nil_append] at h ⊢
          by_cases hz : dv = 0
          · rw [if_neg (by simpa using hz)] at h
            exact absurd rfl h
          · rw [if_pos hz] at h ⊢
            simpa [joinSp] using goodClause_high_sentence dv
  | some av =>
      by_cases haz : av = 0
      · simp only [analysesClauseOf_some, if_neg (show ¬ av ≠ 0 by simpa using haz),
          List.nil_append] at h ⊢
        cases B with
        | none =>
            simp only [highClauseOf_none] at h
            exact absurd rfl h
        | some dv =>
            simp only [highClauseOf_some] at h ⊢
            by_cases hz : dv = 0
            · rw [if_neg (by simpa using hz)] at h
              exact absurd rfl h
            · rw [if_pos hz] at h ⊢
              simpa [joinSp] using goodClause_high_sentence dv
      · simp only [analysesClauseOf_some, if_pos (show av ≠ 0 from haz)] at h ⊢
        cases B with
        | none =>
            simp only [highClauseOf_none, List.append_nil] at h ⊢
            simpa [joinSp] using goodClause_analyses_sentence av
        | some dv =>
            simp only [highClauseOf_some] at h ⊢
            by_cases hz : dv = 0
            · rw [if_neg (show ¬ dv ≠ 0 by simpa using hz)] at h ⊢
              simp only [List.append_nil] at h ⊢
              simpa [joinSp] using goodClause_analyses_sentence av
            · rw [if_pos (show dv ≠ 0 from hz)] at h ⊢
              simp only [List.singleton_append, joinSp]
              exact goodClause_join2 _ _ (headShape_analyses_sentence av)
                (lastShape_high_sentence dv)

theorem goodClause_format_delta (d : List (String × Int))
    (h : _format_delta d ≠ "") : GoodClause (_format_delta d) := by
  rw [format_delta_parts] at h ⊢
  exact goodClause_clausesOf _ _ h

theorem sourceParts_good (a : AggregatedInsights) :
    ∀ p ∈ sourceParts a, GoodClause p := by
  intro p hp
  unfold sourceParts at hp
  rcases List.mem_append.1 hp with hp | hp
  · rcases List.mem_append.1 hp with hp | hp
    · rcases List.mem_cons.1 hp with rfl | hp
      · exact goodClause_totalCount a
      · rcases List.mem_cons.1 hp with rfl | hp
        · exact goodClause_mix a
        · simp at hp
    · by_cases hl : _format_top_labels a.top_labels ≠ ""
      · rw [if_pos hl] at hp
        rcases List.mem_cons.1 hp with rfl | hp
        · refine goodClause_top_labels _ ?_
          intro hnil
          rw [hnil, format_top_labels_nil] at hl
          exact hl rfl
        · simp at hp
      · rw [if_neg hl] at hp
        simp at hp
  · cases hd : a.delta with
    | none => rw [hd] at hp; simp at hp
    | some d =>
        rw [hd] at hp
        simp only [] at hp
        by_cases h1 : d ≠ []
        · rw [if_pos h1] at hp
          by_cases h2 : _format_delta d ≠ ""
          · rw [if_pos h2] at hp
            rcases List.mem_cons.1 hp with rfl | hp
            · exact goodClause_format_delta d h2
            · simp at hp
          · rw [if_neg h2] at hp
            simp at hp
        · rw [if_neg h1] at hp
          simp at hp

theorem label_ite_eq (tl : List InsightTopLabel) :
    (if _format_top_labels tl ≠ "" then [_format_top_labels tl] else [])
      = (if tl ≠ [] then [_format_top_labels tl] else []) := by
  by_cases h : tl = []
  · subst h
    simp [format_top_labels_nil]
  · have hne := (goodClause_top_labels tl h).1
    rw [if_pos hne, if_pos h]

theorem sourceParts_join_eq_clauses (a : AggregatedInsights) :
    joinSp (sourceParts a) = joinSp (fallbackClauses a) := by
  unfold sourceParts fallbackClauses deltaComponent
  rw [label_ite_eq]
  cases hd : a.delta with
  | none => simp [analysesClauseOf, highClauseOf]
  | some d =>
      simp only []
      by_cases h1 : d ≠ []
      · rw [if_pos h1, format_delta_parts d]
        cases hA : d.lookup "analyses" with
        | none =>
            cases hB : d.lookup "high_severity" with
            | none => simp [analysesClauseOf_none, highClauseOf_none, joinSp]
            | some dv =>
                simp only [analysesClauseOf_none, highClauseOf_some,
                  List.nil_append]
                by_cases hz : dv = 0
                · rw [if_neg (show ¬ dv ≠ 0 by simpa using hz)]
                  simp [joinSp]
                · rw [if_pos (show dv ≠ 0 from hz)]
                  have hgc := goodClause_high_sentence dv
                  rw [if_pos (show joinSp [_] ≠ "" by simpa [joinSp] using hgc.1)]
                  simp [joinSp]
        | some av =>
            by_cases haz : av = 0
            · simp only [analysesClauseOf_some,
                if_neg (show ¬ av ≠ 0 by simpa using haz), List.nil_append]
              cases hB : d.lookup "high_severity" with
              | none => simp [highClauseOf_none, joinSp]
              | some dv =>
                  simp only [highClauseOf_some]
                  by_cases hz : dv = 0
                  · rw [if_neg (show ¬ dv ≠ 0 by simpa using hz)]
                    simp [joinSp]
                  · rw [if_pos (show dv ≠ 0 from hz)]
                    have hgc := goodClause_high_sentence dv
                    rw [if_pos (show joinSp [_] ≠ "" by simpa [joinSp] using hgc.1)]
                    simp [joinSp]
            · simp only [analysesClauseOf_some, if_pos (show av ≠ 0 from haz)]
              cases hB : d.lookup "high_severity" with
              | none =>
                  simp only [highClauseOf_none, List.append_nil]
                  have hgc := goodClause_analyses_sentence av
                  rw [if_pos (show joinSp [_] ≠ "" by simpa [joinSp] using hgc.1)]
                  simp [joinSp]
              | some dv =>
                  simp only [highClauseOf_some]
                  by_cases hz : dv = 0
                  · rw [if_neg (show ¬ dv ≠ 0 by simpa using hz)]
                    simp only [List.append_nil]
                    have hgc := goodClause_analyses_sentence av
                    rw [if_pos (show joinSp [_] ≠ "" by simpa [joinSp] using hgc.1)]
                    simp [joinSp]
                  · rw [if_pos (show dv ≠ 0 from hz)]
                    have hgc := goodClause_join2 _ _
                      (headShape_analyses_sentence av) (lastShape_high_sentence dv)
                    rw [if_pos (show joinSp ([_] ++ [_]) ≠ ""
                      by simpa [joinSp] using hgc.1)]
                    rw [joinSp_pair, joinSp_merge]
                    congr 1
                    simp
      · rw [if_neg h1]
        have hdn : d = [] := by simpa using h1
        subst hdn
        simp [List.lookup, analysesClauseOf_none, highClauseOf_none]

/-! ## Concurrency lemmas for the cache race model -/

theorem update_self_or {n : Nat} (f : Fin n → TaskPC) (i : Fin n) (pc : TaskPC)
    (j : Fin n) (P : TaskPC → Prop) (h : P (Function.update f i pc j)) :
    (j = i ∧ P pc) ∨ (j ≠ i ∧ P (f j)) := by
  by_cases hji : j = i
  · subst hji
    rw [Function.update_same] at h
    exact Or.inl ⟨rfl, h⟩
  · rw [Function.update_noteq hji] at h
    exact Or.inr ⟨hji, h⟩

theorem lockInv_step (ttl now : Int) {n : Nat} (s : RaceState n) (i : Fin n)
    (h : LockInv s) : LockInv (raceStep ttl now s i) := by
  intro j hj
  cases hti : s.tasks i with
  | start =>
      cases hent : s.entry with
      | none =>
          simp only [raceStep, hti, hent] at hj ⊢
          rcases update_self_or _ _ _ _ (fun pc => pc = TaskPC.locked ∨ ∃ v, pc = TaskPC.building v) hj with ⟨rfl, hp⟩ | ⟨hne, hp⟩
          · rcases hp with hp | ⟨v, hp⟩ <;> exact absurd hp (by simp)
          · exact h j hp
      | some e =>
          by_cases hv : e.is_valid now = true
          · simp only [raceStep, hti, hent, hv, if_true] at hj ⊢
            rcases update_self_or _ _ _ _ (fun pc => pc = TaskPC.locked ∨ ∃ v, pc = TaskPC.building v) hj with ⟨rfl, hp⟩ | ⟨hne, hp⟩
            · rcases hp with hp | ⟨v, hp⟩ <;> exact absurd hp (by simp)
            · exact h j hp
          · have hv2 : e.is_valid now = false := by simpa using hv
            simp only [raceStep, hti, hent, hv2, Bool.false_eq_true, if_false] at hj ⊢
            rcases update_self_or _ _ _ _ (fun pc => pc = TaskPC.locked ∨ ∃ v, pc = TaskPC.building v) hj with ⟨rfl, hp⟩ | ⟨hne, hp⟩
            · rcases hp with hp | ⟨v, hp⟩ <;> exact absurd hp (by simp)
            · exact h j hp
  | waiting =>
      cases hlk : s.lock with
      | none =>
          simp only [raceStep, hti, hlk] at hj ⊢
          rcases update_self_or _ _ _ _ (fun pc => pc = TaskPC.locked ∨ ∃ v, pc = TaskPC.building v) hj with ⟨rfl, hp⟩ | ⟨hne, hp⟩
          · rfl
          · have hc := h j hp
            rw [hlk] at hc
            exact absurd hc (by simp)
      | some k =>
          simp only [raceStep, hti, hlk] at hj ⊢
          have hc := h j hj
          rw [hlk] at hc
          exact hc
  | locked =>
      cases hent : s.entry with
      | none =>
          simp only [raceStep, hti, hent] at hj ⊢
          rcases update_self_or _ _ _ _ (fun pc => pc = TaskPC.locked ∨ ∃ v, pc = TaskPC.building v) hj with ⟨hji, hp⟩ | ⟨hne, hp⟩
          · rw [hji]
            exact h i (Or.inl hti)
          · exact h j hp
      | some e =>
          by_cases hv : e.is_valid now = true
          · simp only [raceStep, hti, hent, hv, if_true] at hj ⊢
            rcases update_self_or _ _ _ _ (fun pc => pc = TaskPC.locked ∨ ∃ v, pc = TaskPC.building v) hj with ⟨rfl, hp⟩ | ⟨hne, hp⟩
            · rcases hp with hp | ⟨v, hp⟩ <;> exact absurd hp (by simp)
            · have := h j hp
              have hji : j = i := by
                have hi := h i (Or.inl hti)
                rw [this] at hi
                exact Option.some.inj hi
              exact absurd hji hne
          · have hv2 : e.is_valid now = false := by simpa using hv
            simp only [raceStep, hti, hent, hv2, Bool.false_eq_true, if_false] at hj ⊢
            rcases update_self_or _ _ _ _ (fun pc => pc = TaskPC.locked ∨ ∃ v, pc = TaskPC.building v) hj with ⟨hji, hp⟩ | ⟨hne, hp⟩
            · rw [hji]
              exact h i (Or.inl hti)
            · exact h j hp
  | building v =>
      simp only [raceStep, hti] at hj ⊢
      rcases update_self_or _ _ _ _ (fun pc => pc = TaskPC.locked ∨ ∃ v, pc = TaskPC.building v) hj with ⟨rfl, hp⟩ | ⟨hne, hp⟩
      · rcases hp with hp | ⟨w, hp⟩ <;> exact absurd hp (by simp)
      · have := h j hp
        have hji : j = i := by
          have hi := h i (Or.inr ⟨v, hti⟩)
          rw [this] at hi
          exact Option.some.inj hi
        exact absurd hji hne
  | done v =>
      simp only [raceStep, hti] at hj ⊢
      exact h j hj

theorem raceInv_step (ttl now : Int) (httl : 0 < ttl) {n : Nat}
    (s : RaceState n) (i : Fin n) (hL : LockInv s) (h : RaceInv now s) :
    RaceInv now (raceStep ttl now s i) := by
  obtain ⟨h2, h3, h4, h5, h6, h7⟩ := h
  cases hti : s.tasks i with
  | start =>
      cases hent : s.entry with
      | none =>
          simp only [RaceInv, raceStep, hti, hent]
          refine ⟨?_, h3, ?_, ?_, ?_, ?_⟩
          · intro e he
            cases he
          · intro j v hp
            rcases update_self_or _ _ _ _ (fun pc => pc = TaskPC.building v) hp with
              ⟨hji, hp2⟩ | ⟨hne, hp2⟩
            · exact absurd hp2 (by simp)
            · exact ⟨(h4 j v hp2).1, (h4 j v hp2).2.1, trivial⟩
          · intro j v hp
            rcases update_self_or _ _ _ _ (fun pc => pc = TaskPC.done v) hp with
              ⟨hji, hp2⟩ | ⟨hne, hp2⟩
            · exact absurd hp2 (by simp)
            · exact h5 j v hp2
          · intro hc
            rcases h6 hc with ⟨j, v, hb⟩ | ⟨e2, he2, _, _⟩
            · have hji : j ≠ i := by
                intro he2
                rw [he2, hti] at hb
                simp at hb
              refine Or.inl ⟨j, v, ?_⟩
              rw [Function.update_noteq hji]
              exact hb
            · rw [hent] at he2
              cases he2
          · intro hc j v hp
            rcases update_self_or _ _ _ _ (fun pc => pc = TaskPC.done v) hp with
              ⟨hji, hp2⟩ | ⟨hne, hp2⟩
            · exact absurd hp2 (by simp)
            · exact h7 hc j v hp2
      | some e =>
          by_cases hv : e.is_valid now = true
          · simp only [RaceInv, raceStep, hti, hent, hv, if_true]
            have hval0 : e.value = 0 ∧ s.buildCount = 1 := by
              rcases h2 e hent with hinv | ⟨hv0, _, hc1⟩
              · rw [hv] at hinv
                cases hinv
              · exact ⟨hv0, hc1⟩
            refine ⟨?_, h3, ?_, ?_, ?_, ?_⟩
            · intro e2 he2
              have he3 : e2 = e := (Option.some.inj he2).symm
              subst he3
              exact Or.inr ⟨hval0.1, hv, hval0.2⟩
            · intro j v hp
              rcases update_self_or _ _ _ _ (fun pc => pc = TaskPC.building v) hp with
                ⟨hji, hp2⟩ | ⟨hne, hp2⟩
              · exact absurd hp2 (by simp)
              · rcases h4 j v hp2 with ⟨_, _, hen⟩
                rw [hent] at hen
                cases hen
            · intro j v hp
              rcases update_self_or _ _ _ _ (fun pc => pc = TaskPC.done v) hp with
                ⟨hji, hp2⟩ | ⟨hne, hp2⟩
              · have hve : v = e.value := by
                  have := hp2
                  simp at this
                  omega
                rw [hve, hval0.1]
              · exact h5 j v hp2
            · intro hc
              exact Or.inr ⟨e, rfl, hv, hval0.1⟩
            · intro hc
              rw [hc] at hval0
              omega
          · have hv2 : e.is_valid now = false := by simpa using hv
            simp only [RaceInv, raceStep, hti, hent, hv2, Bool.false_eq_true,
              if_false]
            refine ⟨?_, h3, ?_, ?_, ?_, ?_⟩
            · intro e2 he2
              cases he2
            · intro j v hp
              rcases update_self_or _ _ _ _ (fun pc => pc = TaskPC.building v) hp with
                ⟨hji, hp2⟩ | ⟨hne, hp2⟩
              · exact absurd hp2 (by simp)
              · exact ⟨(h4 j v hp2).1, (h4 j v hp2).2.1, trivial⟩
            · intro j v hp
              rcases update_self_or _ _ _ _ (fun pc => pc = TaskPC.done v) hp with
                ⟨hji, hp2⟩ | ⟨hne, hp2⟩
              · exact absurd hp2 (by simp)
              · exact h5 j v hp2
            · intro hc
              rcases h6 hc with ⟨j, v, hb⟩ | ⟨e2, he2, hval, _⟩
              · have hji : j ≠ i := by
                  intro he2
                  rw [he2, hti] at hb
                  simp at hb
                refine Or.inl ⟨j, v, ?_⟩
                rw [Function.update_noteq hji]
                exact hb
              · rw [hent] at he2
                have he3 : e = e2 := Option.some.inj he2
                rw [← he3, hv2] at hval
                cases hval
            · intro hc j v hp
              rcases update_self_or _ _ _ _ (fun pc => pc = TaskPC.done v) hp with
                ⟨hji, hp2⟩ | ⟨hne, hp2⟩
              · exact absurd hp2 (by simp)
              · exact h7 hc j v hp2
  | waiting =>
      cases hlk : s.lock with
      | none =>
          simp only [RaceInv, raceStep, hti, hlk]
          refine ⟨h2, h3, ?_, ?_, ?_, ?_⟩
          · intro j v hp
            rcases update_self_or _ _ _ _ (fun pc => pc = TaskPC.building v) hp with
              ⟨hji, hp2⟩ | ⟨hne, hp2⟩
            · exact absurd hp2 (by simp)
            · exact h4 j v hp2
          · intro j v hp
            rcases update_self_or _ _ _ _ (fun pc => pc = TaskPC.done v) hp with
              ⟨hji, hp2⟩ | ⟨hne, hp2⟩
            · exact absurd hp2 (by simp)
            · exact h5 j v hp2
          · intro hc
            rcases h6 hc with ⟨j, v, hb⟩ | he
            · have hji : j ≠ i := by
                intro he2
                rw [he2, hti] at hb
                simp at hb
              refine Or.inl ⟨j, v, ?_⟩
              rw [Function.update_noteq hji]
              exact hb
            · exact Or.inr he
          · intro hc j v hp
            rcases update_self_or _ _ _ _ (fun pc => pc = TaskPC.done v) hp with
              ⟨hji, hp2⟩ | ⟨hne, hp2⟩
            · exact absurd hp2 (by simp)
            · exact h7 hc j v hp2
      | some k =>
          simp only [RaceInv, raceStep, hti, hlk]
          exact ⟨h2, h3, h4, h5, h6, h7⟩
  | locked =>
      cases hent : s.entry with
      | none =>
          simp only [RaceInv, raceStep, hti, hent]
          have hc0 : s.buildCount = 0 := by
            by_cases hc : s.buildCount = 0
            · exact hc
            · exfalso
              have hc1 : s.buildCount = 1 := by omega
              rcases h6 hc1 with ⟨j, v, hb⟩ | ⟨e2, he2, _, _⟩
              · have hlj := hL j (Or.inr ⟨v, hb⟩)
                have hli := hL i (Or.inl hti)
                rw [hli] at hlj
                have hji : j = i := (Option.some.inj hlj).symm
                rw [hji, hti] at hb
                simp at hb
              · rw [hent] at he2
                cases he2
          refine ⟨?_, ?_, ?_, ?_, ?_, ?_⟩
          · intro e2 he2
            cases he2
          · omega
          · intro j v hp
            rcases update_self_or _ _ _ _ (fun pc => pc = TaskPC.building v) hp with
              ⟨hji, hp2⟩ | ⟨hne, hp2⟩
            · have hv0 : v = s.buildCount := by
                have := hp2
                simp at this
                omega
              exact ⟨by omega, by omega, trivial⟩
            · have := (h4 j v hp2).2.1
              omega
          · intro j v hp
            rcases update_self_or _ _ _ _ (fun pc => pc = TaskPC.done v) hp with
              ⟨hji, hp2⟩ | ⟨hne, hp2⟩
            · exact absurd hp2 (by simp)
            · exact h5 j v hp2
          · intro _
            refine Or.inl ⟨i, s.buildCount, ?_⟩
            rw [Function.update_same]
          · intro hc
            omega
      | some e =>
          by_cases hv : e.is_valid now = true
          · simp only [RaceInv, raceStep, hti, hent, hv, if_true]
            have hval0 : e.value = 0 ∧ s.buildCount = 1 := by
              rcases h2 e hent with hinv | ⟨hv0, _, hc1⟩
              · rw [hv] at hinv
                cases hinv
              · exact ⟨hv0, hc1⟩
            refine ⟨?_, h3, ?_, ?_, ?_, ?_⟩
            · intro e2 he2
              have he3 : e2 = e := (Option.some.inj he2).symm
              subst he3
              exact Or.inr ⟨hval0.1, hv, hval0.2⟩
            · intro j v hp
              rcases update_self_or _ _ _ _ (fun pc => pc = TaskPC.building v) hp with
                ⟨hji, hp2⟩ | ⟨hne, hp2⟩
              · exact absurd hp2 (by simp)
              · rcases h4 j v hp2 with ⟨_, _, hen⟩
                rw [hent] at hen
                cases hen
            · intro j v hp
              rcases update_self_or _ _ _ _ (fun pc => pc = TaskPC.done v) hp with
                ⟨hji, hp2⟩ | ⟨hne, hp2⟩
              · have hve : v = e.value := by
                  have := hp2
                  simp at this
                  omega
                rw [hve, hval0.1]
              · exact h5 j v hp2
            · intro hc
              exact Or.inr ⟨e, rfl, hv, hval0.1⟩
            · intro hc
              rw [hc] at hval0
              omega
          · have hv2 : e.is_valid now = false := by simpa using hv
            simp only [RaceInv, raceStep, hti, hent, hv2, Bool.false_eq_true,
              if_false]
            have hc0 : s.buildCount = 0 := by
              by_cases hc : s.buildCount = 0
              · exact hc
              · exfalso
                have hc1 : s.buildCount = 1 := by omega
                rcases h6 hc1 with ⟨j, v, hb⟩ | ⟨e2, he2, hval, _⟩
                · have hlj := hL j (Or.inr ⟨v, hb⟩)
                  have hli := hL i (Or.inl hti)
                  rw [hli] at hlj
                  have hji : j = i := (Option.some.inj hlj).symm
                  rw [hji, hti] at hb
                  simp at hb
                · rw [hent] at he2
                  have he3 : e = e2 := Option.some.inj he2
                  rw [← he3, hv2] at hval
                  cases hval
            refine ⟨?_, ?_, ?_, ?_, ?_, ?_⟩
            · intro e2 he2
              cases he2
            · omega
            · intro j v hp
              rcases update_self_or _ _ _ _ (fun pc => pc = TaskPC.building v) hp with
                ⟨hji, hp2⟩ | ⟨hne, hp2⟩
              · have hv0 : v = s.buildCount := by
                  have := hp2
                  simp at this
                  omega
                exact ⟨by omega, by omega, trivial⟩
              · have := (h4 j v hp2).2.1
                omega
            · intro j v hp
              rcases update_self_or _ _ _ _ (fun pc => pc = TaskPC.done v) hp with
                ⟨hji, hp2⟩ | ⟨hne, hp2⟩
              · exact absurd hp2 (by simp)
              · exact h5 j v hp2
            · intro _
              refine Or.inl ⟨i, s.buildCount, ?_⟩
              rw [Function.update_same]
            · intro hc
              omega
  | building v =>
      simp only [RaceInv, raceStep, hti]
      have hbi := h4 i v hti
      have hexp : (if ttl ≤ 0 then some now else some (now + ttl)) =
          some (now + ttl) := by
        rw [if_neg (by omega)]
      have hval : (⟨v, if ttl ≤ 0 then some now else some (now + ttl)⟩ :
          CacheEntry Nat).is_valid now = true := by
        rw [hexp]
        simp only [CacheEntry.is_valid]
        simp only [decide_eq_true_eq]
        omega
      refine ⟨?_, ?_, ?_, ?_, ?_, ?_⟩
      · intro e2 he2
        have he3 : e2 = ⟨v, if ttl ≤ 0 then some now else some (now + ttl)⟩ :=
          (Option.some.inj he2).symm
        subst he3
        exact Or.inr ⟨hbi.1, hval, hbi.2.1⟩
      · omega
      · intro j w hp
        rcases update_self_or _ _ _ _ (fun pc => pc = TaskPC.building w) hp with
          ⟨hji, hp2⟩ | ⟨hne, hp2⟩
        · exact absurd hp2 (by simp)
        · have hlj := hL j (Or.inr ⟨w, hp2⟩)
          have hli := hL i (Or.inr ⟨v, hti⟩)
          rw [hli] at hlj
          have hji : j = i := (Option.some.inj hlj).symm
          exact absurd hji hne
      · intro j w hp
        rcases update_self_or _ _ _ _ (fun pc => pc = TaskPC.done w) hp with
          ⟨hji, hp2⟩ | ⟨hne, hp2⟩
        · have hwv : w = v := by
            have := hp2
            simp at this
            omega
          rw [hwv, hbi.1]
        · exact h5 j w hp2
      · intro _
        exact Or.inr ⟨⟨v, if ttl ≤ 0 then some now else some (now + ttl)⟩,
          rfl, hval, hbi.1⟩
      · intro hc
        have := hbi.2.1
        omega
  | done v =>
      simp only [RaceInv, raceStep, hti]
      exact ⟨h2, h3, h4, h5, h6, h7⟩

theorem lockInv_run (ttl now : Int) {n : Nat} (s : RaceState n)
    (sched : List (Fin n)) (h : LockInv s) :
    LockInv (raceRun ttl now s sched) := by
  induction sched generalizing s with
  | nil => exact h
  | cons i rest ih => exact ih _ (lockInv_step ttl now s i h)

theorem raceInv_run (ttl now : Int) (httl : 0 < ttl) {n : Nat}
    (s : RaceState n) (sched : List (Fin n)) (hL : LockInv s)
    (h : RaceInv now s) : RaceInv now (raceRun ttl now s sched) := by
  induction sched generalizing s with
  | nil => exact h
  | cons i rest ih =>
      exact ih _ (lockInv_step ttl now s i hL)
        (raceInv_step ttl now httl s i hL h)

theorem lockInv_init (n : Nat) (entry0 : Option (CacheEntry Nat)) :
    LockInv (raceInit n entry0) := by
  intro i hi
  rcases hi with hi | ⟨v, hi⟩ <;> exact absurd hi (by simp [raceInit])

theorem raceInv_init (now : Int) (n : Nat) (entry0 : Option (CacheEntry Nat))
    (hinit : entry0 = none ∨ ∀ e, entry0 = some e → e.is_valid now = false) :
    RaceInv now (raceInit n entry0) := by
  refine ⟨?_, by simp [raceInit], ?_, ?_, ?_, ?_⟩
  · intro e he
    rcases hinit with h0 | h0
    · rw [h0] at he
      cases he
    · exact Or.inl (h0 e he)
  · intro j v hp
    exact absurd hp (by simp [raceInit])
  · intro j v hp
    exact absurd hp (by simp [raceInit])
  · intro hc
    simp [raceInit] at hc
  · intro _ j v hp
    exact absurd hp (by simp [raceInit])

theorem isDone_exists (pc : TaskPC) (h : pc.isDone = true) : ∃ v, pc = .done v := by
  cases pc <;> simp [TaskPC.isDone] at h ⊢

/-- C1 (counterexample): the claim as stated fails on the code when the
cache TTL is not positive.  With `ttl = 0` the winner's `set` stores an
immediately expired entry, so in a genuinely concurrent race on an empty
key (both callers miss before either acquires the lock) the second caller
re-checks, misses again, and runs the builder a second time: the builder
runs twice and the callers obtain different values. -/
theorem claim_C1_counterexample : ¬ C1Claim := by
  intro h
  have hc := h 2 0 0 none (Or.inl rfl) [0, 1, 0, 0, 0, 1, 1, 1]
    (by decide) (by omega)
  have hbc : (raceRun 0 0 (raceInit 2 none)
      [0, 1, 0, 0, 0, 1, 1, 1]).buildCount = 2 := by decide
  have h1 := hc.1
  rw [hbc] at h1
  exact absurd h1 (by omega)

/-- C1 (amended): `get_or_set` never runs the builder concurrently for the
same key under any TTL, and when the TTL is positive, any completed race
of two or more callers on an initially empty-or-expired key runs the
builder exactly once, every caller receiving the value of that single
build (the one performed by the caller that won the per-key lock race). -/
theorem claim_C1_amended :
    ∀ (n : Nat) (ttl now : Int) (entry0 : Option (CacheEntry Nat)),
      (entry0 = none ∨ ∀ e, entry0 = some e → e.is_valid now = false) →
      ∀ sched : List (Fin n),
      (∀ i j v w,
        (raceRun ttl now (raceInit n entry0) sched).tasks i = .building v →
        (raceRun ttl now (raceInit n entry0) sched).tasks j = .building w →
        i = j) ∧
      (0 < ttl →
        (∀ i, ((raceRun ttl now (raceInit n entry0) sched).tasks i).isDone) →
        2 ≤ n →
        (raceRun ttl now (raceInit n entry0) sched).buildCount = 1 ∧
        ∀ i, (raceRun ttl now (raceInit n entry0) sched).tasks i = .done 0) := by
  intro n ttl now entry0 hinit sched
  have hL := lockInv_run ttl now (raceInit n entry0) sched (lockInv_init n entry0)
  constructor
  · intro i j v w hi hj
    have hli := hL i (Or.inr ⟨v, hi⟩)
    have hlj := hL j (Or.inr ⟨w, hj⟩)
    rw [hli] at hlj
    exact Option.some.inj hlj
  · intro httl hdone hn
    have hR := raceInv_run ttl now httl (raceInit n entry0) sched
      (lockInv_init n entry0) (raceInv_init now n entry0 hinit)
    obtain ⟨h2, h3, h4, h5, h6, h7⟩ := hR
    have hall : ∀ i, (raceRun ttl now (raceInit n entry0) sched).tasks i
        = .done 0 := by
      intro i
      obtain ⟨v, hv⟩ := isDone_exists _ (hdone i)
      rw [hv, h5 i v hv]
    refine ⟨?_, hall⟩
    by_cases hc : (raceRun ttl now (raceInit n entry0) sched).buildCount = 0
    · exact absurd (hall ⟨0, by omega⟩) (h7 hc ⟨0, by omega⟩ 0)
    · omega

/-- Witness for C1 (amended): a concrete completed two-caller race with
TTL 1, in which the builder ran exactly once and both callers received the
single built value. -/
theorem claim_C1_witness :
    (raceRun 1 0 (raceInit 2 none) [0, 0, 0, 1, 0, 1, 1]).buildCount = 1 ∧
    ∀ i, (raceRun 1 0 (raceInit 2 none) [0, 0, 0, 1, 0, 1, 1]).tasks i
      = .done 0 :=
  (claim_C1_amended 2 1 0 none (Or.inl rfl) [0, 0, 0, 1, 0, 1, 1]).2
    (by omega) (by decide) (by omega)

/-! ## Sequential cache lemmas (claims C2, C3) -/

theorem lookup_filter_ne_self {V : Type} (l : List (String × V)) (key : String) :
    (l.filter (fun kv => kv.1 ≠ key)).lookup key = none := by
  induction l with
  | nil => rfl
  | cons kv t ih =>
      by_cases hk : kv.1 = key
      · simp only [List.filter_cons, hk]
        simp only [ne_eq, not_true_eq_false]
        simp [ih]
        exact fun a b _ hne he => hne he.symm
      · have hb : (key == kv.1) = false := by
          simp only [beq_eq_false_iff_ne, ne_eq]
          exact fun he => hk he.symm
        simp only [List.filter_cons, ne_eq, hk, not_false_eq_true]
        simp only [List.lookup, hb, ih]

theorem get_of_lookup_none {V : Type} (s : InsightCacheState V) (now : Int)
    (key : String) (h : s.entries.lookup key = none) :
    InsightCache.get s now key = (s, none) := by
  unfold InsightCache.get
  rw [h]

theorem get_miss_lookup {V : Type} (s : InsightCacheState V) (now : Int)
    (key : String) (h : (InsightCache.get s now key).2 = none) :
    ((InsightCache.get s now key).1).entries.lookup key = none := by
  unfold InsightCache.get at h ⊢
  cases hl : s.entries.lookup key with
  | none => simp [hl]
  | some e =>
      simp only [hl] at h ⊢
      by_cases hv : e.is_valid now = true
      · simp only [hv, if_true] at h
        simp at h
      · have hv2 : e.is_valid now = false := by simpa using hv
        simp only [hv2, Bool.false_eq_true, if_false] at h ⊢
        exact lookup_filter_ne_self s.entries key

theorem get_or_set_of_miss {V E : Type} (s : InsightCacheState V) (now : Int)
    (key : String) (h : s.entries.lookup key = none) (factory : Except E V) :
    InsightCache.get_or_set s now key factory =
      match factory with
      | .error e => (s, .error e)
      | .ok value =>
          let pair := InsightCache.set s now key value none
          (pair.1, .ok pair.2) := by
  unfold InsightCache.get_or_set
  simp only [get_of_lookup_none s now key h]

theorem lookup_cons_self {V : Type} (key : String) (e : V)
    (t : List (String × V)) : List.lookup key ((key, e) :: t) = some e := by
  simp [List.lookup]

theorem get_or_set_after_miss {V E : Type} (s : InsightCacheState V)
    (now : Int) (key : String)
    (h : (InsightCache.get s now key).2 = none) (factory : Except E V) :
    InsightCache.get_or_set s now key factory =
      match factory with
      | .error e => ((InsightCache.get s now key).1, .error e)
      | .ok value =>
          let pair :=
            InsightCache.set (InsightCache.get s now key).1 now key value none
          (pair.1, .ok pair.2) := by
  have hpair : InsightCache.get s now key
      = ((InsightCache.get s now key).1, none) := by
    rw [← h]
  have hin : InsightCache.get (InsightCache.get s now key).1 now key
      = ((InsightCache.get s now key).1, none) :=
    get_of_lookup_none _ now key (get_miss_lookup s now key h)
  unfold InsightCache.get_or_set
  rw [hpair]
  simp only [hin]

/-- C2: when `get_or_set` misses and the builder raises, the exception
propagates to the caller, no entry is cached under the key (a subsequent
`get` on that key is a miss), and a later `get_or_set` on the same key
performs and caches a fresh build — the per-key lock was released by the
`async with` block, not poisoned. -/
theorem claim_C2 :
    ∀ (V E : Type) (s : InsightCacheState V) (now now2 : Int) (key : String)
      (err : E),
      (InsightCache.get s now key).2 = none →
      (InsightCache.get_or_set s now key (Except.error err)).2
          = Except.error err ∧
      (InsightCache.get
          (InsightCache.get_or_set s now key
            (Except.error err : Except E V)).1 now2 key).2 = none ∧
      (∀ v : V, ∃ entry : CacheEntry V,
        (InsightCache.get_or_set
            (InsightCache.get_or_set s now key
              (Except.error err : Except E V)).1 now2 key
            (Except.ok v : Except E V)).2 = Except.ok entry ∧
        entry.value = v ∧
        (InsightCache.get_or_set
            (InsightCache.get_or_set s now key
              (Except.error err : Except E V)).1 now2 key
            (Except.ok v : Except E V)).1.entries.lookup key = some entry) := by
  intro V E s now now2 key err hmiss
  have hrw := get_or_set_after_miss s now key hmiss (Except.error err : Except E V)
  simp only [hrw]
  have hs1 : (InsightCache.get s now key).1.entries.lookup key = none :=
    get_miss_lookup s now key hmiss
  refine ⟨trivial, ?_, ?_⟩
  · rw [get_of_lookup_none _ now2 key hs1]
  · intro v
    have hretry := get_or_set_of_miss (InsightCache.get s now key).1 now2 key
      hs1 (Except.ok v : Except E V)
    simp only [hretry]
    refine ⟨⟨v, InsightCache.expiry (InsightCache.get s now key).1 now2⟩,
      rfl, rfl, ?_⟩
    simp only [InsightCache.set]
    exact lookup_cons_self key _ _

/-- Witness for C2 at a concrete cache state: empty cache, TTL 60,
failing then succeeding builder on key "24h". -/
theorem claim_C2_witness :
    ((InsightCache.get_or_set (⟨60, []⟩ : InsightCacheState Nat) 0 "24h"
        (Except.error "boom" : Except String Nat)).2
      = Except.error "boom") ∧
    (InsightCache.get
        (InsightCache.get_or_set (⟨60, []⟩ : InsightCacheState Nat) 0 "24h"
          (Except.error "boom" : Except String Nat)).1 5 "24h").2 = none := by
  have h := claim_C2 Nat String ⟨60, []⟩ 0 5 "24h" "boom" (by decide)
  exact ⟨h.1, h.2.1⟩

/-- C3: an entry returned by `InsightCache.get` is never expired — its
expiry is either absent or strictly in the future — and an entry whose
expiry has passed is evicted from the entry map on access, `get`
reporting a miss. -/
theorem claim_C3 :
    ∀ (V : Type) (s : InsightCacheState V) (now : Int) (key : String),
      (∀ e, (InsightCache.get s now key).2 = some e →
        e.expires_at = none ∨ ∃ t, e.expires_at = some t ∧ t > now) ∧
      (∀ e, s.entries.lookup key = some e → e.is_valid now = false →
        (InsightCache.get s now key).2 = none ∧
        (InsightCache.get s now key).1.entries.lookup key = none) := by
  intro V s now key
  constructor
  · intro e he
    unfold InsightCache.get at he
    cases hl : s.entries.lookup key with
    | none =>
        simp only [hl] at he
        cases he
    | some e2 =>
        simp only [hl] at he
        by_cases hv : e2.is_valid now = true
        · simp only [hv, if_true] at he
          have he2 : e2 = e := by simpa using he
          subst he2
          unfold CacheEntry.is_valid at hv
          cases hx : e2.expires_at with
          | none => exact Or.inl rfl
          | some t =>
              rw [hx] at hv
              simp only [decide_eq_true_eq] at hv
              exact Or.inr ⟨t, rfl, hv⟩
        · have hv2 : e2.is_valid now = false := by simpa using hv
          simp only [hv2, Bool.false_eq_true, if_false] at he
          cases he
  · intro e hl hv
    unfold InsightCache.get
    simp only [hl, hv, Bool.false_eq_true, if_false]
    exact ⟨trivial, lookup_filter_ne_self s.entries key⟩

/-- Witness for C3: a cache holding an expired entry under "24h"; `get`
misses and evicts it. -/
theorem claim_C3_witness :
    (InsightCache.get
        (⟨60, [("24h", ⟨(7 : Nat), some 5⟩)]⟩ : InsightCacheState Nat)
        10 "24h").2 = none ∧
    (InsightCache.get
        (⟨60, [("24h", ⟨(7 : Nat), some 5⟩)]⟩ : InsightCacheState Nat)
        10 "24h").1.entries.lookup "24h" = none :=
  (claim_C3 Nat ⟨60, [("24h", ⟨7, some 5⟩)]⟩ 10 "24h").2 ⟨7, some 5⟩
    (by decide) (by decide)

/-! ## Aggregator lemmas (claims C4, C5) -/

theorem mem_insertRow (a r : AnalysisRow) (l : List AnalysisRow) :
    a ∈ insertRow r l ↔ a = r ∨ a ∈ l := by
  induction l with
  | nil => simp [insertRow]
  | cons x xs ih =>
      unfold insertRow
      by_cases hx : x.created_at ≤ r.created_at
      · rw [if_pos hx]
        rw [List.mem_cons, ih, List.mem_cons]
        tauto
      · rw [if_neg hx]
        rw [List.mem_cons, List.mem_cons]

theorem mem_sortByCreated (a : AnalysisRow) (l : List AnalysisRow) :
    a ∈ sortByCreated l ↔ a ∈ l := by
  induction l with
  | nil => simp [sortByCreated]
  | cons x xs ih =>
      unfold sortByCreated
      rw [mem_insertRow]
      simp [ih]

theorem mem_fetch_rows_none (store : List AnalysisRow) (since : Int)
    (r : AnalysisRow) :
    r ∈ _fetch_rows store since none ↔
      (r ∈ store ∧ since ≤ r.created_at) := by
  unfold _fetch_rows
  rw [mem_sortByCreated, List.mem_filter]
  simp

theorem mem_fetch_rows_some (store : List AnalysisRow) (since u : Int)
    (r : AnalysisRow) :
    r ∈ _fetch_rows store since (some u) ↔
      (r ∈ store ∧ since ≤ r.created_at ∧ r.created_at < u) := by
  unfold _fetch_rows
  rw [mem_sortByCreated, List.mem_filter]
  simp

/-- C5 (counterexample): the current-set query has no upper bound, so a
record created strictly after `now` (here two hours after, on a 24h window
at `now = 0`) is fetched into the current set, contradicting the claim
that the current set is exactly `[first_edge, now]`. -/
theorem claim_C5_counterexample : ¬ C5Claim := by
  intro h
  have h1 := ((h [⟨7200, []⟩] .w24h 0).1 ⟨7200, []⟩).mp (by decide)
  exact absurd h1.2.2 (by decide)

/-- C5 (amended): the current set is exactly the records with creation
time in `[first_edge, +inf)` — records created after `now` included — and
the previous set exactly those in `[first_edge - duration, first_edge)`. -/
theorem claim_C5_amended :
    ∀ (store : List AnalysisRow) (w : InsightWindow) (now : Int),
      (∀ r, r ∈ _fetch_rows store (firstEdge w now) none ↔
        (r ∈ store ∧ firstEdge w now ≤ r.created_at)) ∧
      (∀ r, r ∈ _fetch_rows store (firstEdge w now - _window_duration w)
          (some (firstEdge w now)) ↔
        (r ∈ store ∧ firstEdge w now - _window_duration w ≤ r.created_at
          ∧ r.created_at < firstEdge w now)) :=
  fun store w now =>
    ⟨fun r => mem_fetch_rows_none store (firstEdge w now) r,
     fun r => mem_fetch_rows_some store (firstEdge w now - _window_duration w)
       (firstEdge w now) r⟩

theorem momentStep_analyses (b : Int) (st : AggState × Bool) (m : Moment) :
    ((momentStep b st m).1).analyses = (st.1).analyses := by
  unfold momentStep
  cases h : _normalize_severity m.severity <;> simp only [h]

theorem momentStep_totals (b : Int) (st : AggState × Bool) (m : Moment)
    (e : Int) :
    (((momentStep b st m).1).seriesMap e).total
      = ((st.1).seriesMap e).total := by
  unfold momentStep
  cases h : _normalize_severity m.severity with
  | none => simp only [h]
  | some sv =>
      simp only [h]
      by_cases he : e = b
      · rw [if_pos he, he]
      · rw [if_neg he]

theorem momentFold_analyses (b : Int) (ms : List Moment) :
    ∀ st : AggState × Bool,
      ((ms.foldl (momentStep b) st).1).analyses = (st.1).analyses := by
  induction ms with
  | nil => intro st; rfl
  | cons m rest ih =>
      intro st
      rw [List.foldl_cons, ih, momentStep_analyses]

theorem momentFold_totals (b : Int) (ms : List Moment) (e : Int) :
    ∀ st : AggState × Bool,
      (((ms.foldl (momentStep b) st).1).seriesMap e).total
        = ((st.1).seriesMap e).total := by
  induction ms with
  | nil => intro st; rfl
  | cons m rest ih =>
      intro st
      rw [List.foldl_cons, ih, momentStep_totals]

theorem rowStep_analyses (bs : Int) (edges : List Int) (init : AggState)
    (r : AnalysisRow) :
    (rowStep bs edges init r).analyses
      = (if (_bucket_for r.created_at bs edges).isSome
         then init.analyses + 1 else init.analyses) := by
  unfold rowStep
  cases hb : _bucket_for r.created_at bs edges with
  | none => simp
  | some b =>
      simp only [Option.isSome_some, if_true]
      have hmf := momentFold_analyses b r.moments
        ({ init with analyses := init.analyses + 1 }, false)
      by_cases hflag : (r.moments.foldl (momentStep b)
          ({ init with analyses := init.analyses + 1 }, false)).2 = true
      · rw [if_pos hflag]
        exact hmf
      · rw [if_neg hflag]
        exact hmf

theorem foldl_rowStep_analyses (bs : Int) (edges : List Int)
    (rows : List AnalysisRow) (init : AggState) :
    (rows.foldl (rowStep bs edges) init).analyses
      = init.analyses
        + (rows.filter
            (fun r => (_bucket_for r.created_at bs edges).isSome)).length := by
  induction rows generalizing init with
  | nil => simp
  | cons r rest ih =>
      rw [List.foldl_cons, List.filter_cons, ih, rowStep_analyses]
      cases hb : _bucket_for r.created_at bs edges with
      | none =>
          simp only [hb, Option.isSome_none, Bool.false_eq_true, if_false]
      | some b =>
          simp only [hb, Option.isSome_some, if_true, List.length_cons]
          omega

theorem sum_map_update_mem (l : List Int) (hnd : l.Nodup) (b : Int)
    (hb : b ∈ l) (g : Int → Nat) :
    (l.map (fun e => if e = b then g e + 1 else g e)).sum
      = (l.map g).sum + 1 := by
  induction l with
  | nil => cases hb
  | cons x xs ih =>
      rw [List.map_cons, List.map_cons, List.sum_cons, List.sum_cons]
      rcases List.mem_cons.1 hb with hbx | hbx
      · subst hbx
        rw [if_pos rfl]
        have hnx : b ∉ xs := (List.nodup_cons.1 hnd).1
        have hmap : xs.map (fun e => if e = b then g e + 1 else g e)
            = xs.map g := by
          apply List.map_congr_left
          intro e he
          have hne : e ≠ b := fun hex => hnx (hex ▸ he)
          rw [if_neg hne]
        rw [hmap]
        omega
      · have hxb : x ≠ b := by
          intro hx
          exact (List.nodup_cons.1 hnd).1 (hx ▸ hbx)
        rw [if_neg hxb, ih (List.nodup_cons.1 hnd).2 hbx]
        omega

theorem bucket_for_mem (c bs b : Int) (edges : List Int)
    (h : _bucket_for c bs edges = some b) : b ∈ edges := by
  unfold _bucket_for at h
  by_cases hc : edges.contains (_truncate_datetime c bs)
  · rw [if_pos hc] at h
    have hb : b = _truncate_datetime c bs := (Option.some.inj h).symm
    subst hb
    simpa using hc
  · rw [if_neg hc] at h
    cases h

theorem bucketEdges_nodup (start size : Int) (hs : 0 < size) (count : Nat) :
    (bucketEdges start size count).Nodup := by
  unfold bucketEdges
  have hinj : Function.Injective (fun (i : Nat) => start + (i : Int) * size) := by
    intro a b hab
    simp only [] at hab
    have h2 : (a : Int) * size = (b : Int) * size := add_left_cancel hab
    have h3 := mul_right_cancel₀ (ne_of_gt hs) h2
    exact_mod_cast h3
  exact List.Nodup.map hinj (List.nodup_range count)

theorem foldl_rowStep_sumEq (bs : Int) (edges : List Int)
    (hnd : edges.Nodup) (rows : List AnalysisRow) (init : AggState)
    (h : (edges.map (fun e => (init.seriesMap e).total)).sum = init.analyses) :
    (edges.map (fun e =>
        ((rows.foldl (rowStep bs edges) init).seriesMap e).total)).sum
      = (rows.foldl (rowStep bs edges) init).analyses := by
  induction rows generalizing init with
  | nil => exact h
  | cons r rest ih =>
      rw [List.foldl_cons]
      apply ih
      cases hb : _bucket_for r.created_at bs edges with
      | none =>
          unfold rowStep
          rw [hb]
          exact h
      | some b =>
          have hbmem : b ∈ edges := bucket_for_mem _ _ _ _ hb
          unfold rowStep
          rw [hb]
          simp only []
          set sA : AggState := { init with analyses := init.analyses + 1 } with hsA
          set res := r.moments.foldl (momentStep b) (sA, false) with hres
          have htot : ∀ e, ((res.1).seriesMap e).total = (init.seriesMap e).total := by
            intro e
            rw [hres]
            exact momentFold_totals b r.moments e (sA, false)
          have hana : (res.1).analyses = init.analyses + 1 := by
            rw [hres]
            exact momentFold_analyses b r.moments (sA, false)
          by_cases hflag : res.2 = true
          · rw [if_pos hflag]
            simp only []
            have hmap : edges.map (fun e =>
                (if e = b then
                  { (res.1).seriesMap e with
                      total := ((res.1).seriesMap e).total + 1 }
                 else (res.1).seriesMap e).total)
                = edges.map (fun e =>
                    if e = b then (init.seriesMap e).total + 1
                    else (init.seriesMap e).total) := by
              apply List.map_congr_left
              intro e _
              by_cases he : e = b
              · rw [if_pos he, if_pos he, htot]
              · rw [if_neg he, if_neg he, htot]
            rw [hmap, sum_map_update_mem edges hnd b hbmem, h, hana]
          · rw [if_neg hflag]
            have hmap : edges.map (fun e =>
                (if e = b then
                  { (res.1).seriesMap e with
                      total := ((res.1).seriesMap e).total + 1 }
                 else (res.1).seriesMap e).total)
                = edges.map (fun e =>
                    if e = b then (init.seriesMap e).total + 1
                    else (init.seriesMap e).total) := by
              apply List.map_congr_left
              intro e _
              by_cases he : e = b
              · rw [if_pos he, if_pos he, htot]
              · rw [if_neg he, if_neg he, htot]
            rw [hmap, sum_map_update_mem edges hnd b hbmem, h, hana]

/-- C4 (counterexample): a record fetched into the current set whose
truncated timestamp is beyond the last bucket edge (created two hours
after `now`) is skipped before the `analyses` increment: `aggregate`
reports 0 analyses although the current set holds one record, so the
record is not counted toward `analyses` as the claim states. -/
theorem claim_C4_counterexample : ¬ C4Claim := by
  intro h
  have h2 := h [⟨7200, []⟩] .w24h 0
  rw [show (aggregate [⟨7200, []⟩] .w24h 0).analyses = 0 from by decide] at h2
  rw [show (_fetch_rows [⟨7200, []⟩] (firstEdge .w24h 0) none).length = 1
    from by decide] at h2
  exact absurd h2 (by decide)

/-- C4 (amended): a fetched record whose truncated timestamp matches no
bucket edge is excluded from the per-bucket series and also from the
`analyses` total (and its events from all tallies): `analyses` counts
exactly the bucketed records of the current set, and the series totals
sum to `analyses`. -/
theorem claim_C4_amended :
    ∀ (store : List AnalysisRow) (w : InsightWindow) (now : Int),
      (aggregate store w now).analyses
        = ((_fetch_rows store (firstEdge w now) none).filter
            (fun r => (_bucket_for r.created_at (bucketSizeOf w)
              (bucketEdges (firstEdge w now) (bucketSizeOf w)
                (bucketCountOf w))).isSome)).length
      ∧ ((aggregate store w now).series.map (fun bkt => bkt.total)).sum
          = (aggregate store w now).analyses := by
  intro store w now
  have hsize : 0 < bucketSizeOf w := by
    cases w <;> decide
  constructor
  · simp only [aggregate, firstEdge]
    rw [foldl_rowStep_analyses]
    simp
  · simp only [aggregate, firstEdge]
    rw [List.map_map]
    have hcomp : ((fun bkt : InsightSeriesBucket => bkt.total) ∘
        (fun edge =>
          ({ bucket_start := edge,
             total := ((List.foldl
               (rowStep (bucketSizeOf w)
                 (bucketEdges
                   (_align_start now (bucketSizeOf w) (bucketCountOf w))
                   (bucketSizeOf w) (bucketCountOf w)))
               { seriesMap := fun _ => { total := 0, severity := ⟨0, 0, 0⟩ },
                 severity_totals := ⟨0, 0, 0⟩, label_counts := [],
                 analyses := 0, high_analyses := 0 }
               (_fetch_rows store
                 (_align_start now (bucketSizeOf w) (bucketCountOf w))
                 none)).seriesMap edge).total,
             severity := ((List.foldl
               (rowStep (bucketSizeOf w)
                 (bucketEdges
                   (_align_start now (bucketSizeOf w) (bucketCountOf w))
                   (bucketSizeOf w) (bucketCountOf w)))
               { seriesMap := fun _ => { total := 0, severity := ⟨0, 0, 0⟩ },
                 severity_totals := ⟨0, 0, 0⟩, label_counts := [],
                 analyses := 0, high_analyses := 0 }
               (_fetch_rows store
                 (_align_start now (bucketSizeOf w) (bucketCountOf w))
                 none)).seriesMap edge).severity } : InsightSeriesBucket)))
        = (fun edge => ((List.foldl
               (rowStep (bucketSizeOf w)
                 (bucketEdges
                   (_align_start now (bucketSizeOf w) (bucketCountOf w))
                   (bucketSizeOf w) (bucketCountOf w)))
               { seriesMap := fun _ => { total := 0, severity := ⟨0, 0, 0⟩ },
                 severity_totals := ⟨0, 0, 0⟩, label_counts := [],
                 analyses := 0, high_analyses := 0 }
               (_fetch_rows store
                 (_align_start now (bucketSizeOf w) (bucketCountOf w))
                 none)).seriesMap edge).total) := rfl
    rw [hcomp]
    apply foldl_rowStep_sumEq
    · exact bucketEdges_nodup _ _ hsize _
    · simp

/-! ## Validator and service claims (C6, C7, C9, C10) -/

theorem validate_window_some (v : String) :
    validate_window (some v) =
      (if v = "" then Except.error ()
       else if SUPPORTED_WINDOWS.contains (pyLower (pyStrip v)) then
         Except.ok (pyLower (pyStrip v))
       else Except.error ()) := rfl

theorem validate_window_supported (w : String) (h : w ∈ SUPPORTED_WINDOWS) :
    validate_window (some w) = Except.ok w := by
  have h2 : w = "24h" ∨ w = "7d" := by simpa [SUPPORTED_WINDOWS] using h
  rcases h2 with rfl | rfl <;> rfl

/-- C9: `validate_window` rejects null and the empty string, normalises by
strip + lowercase, accepts exactly the two supported identifiers (returning
the normalised value), and rejects every other input; in particular
"  7D " normalises to "7d" and "30d" is rejected. -/
theorem claim_C9 :
    validate_window none = Except.error () ∧
    validate_window (some "") = Except.error () ∧
    (∀ s : String, pyLower (pyStrip s) ∈ SUPPORTED_WINDOWS →
        validate_window (some s) = Except.ok (pyLower (pyStrip s))) ∧
    (∀ s : String, pyLower (pyStrip s) ∉ SUPPORTED_WINDOWS →
        validate_window (some s) = Except.error ()) ∧
    validate_window (some "  7D ") = Except.ok "7d" ∧
    validate_window (some "30d") = Except.error () := by
  refine ⟨rfl, rfl, ?_, ?_, rfl, rfl⟩
  · intro s hs
    by_cases hse : s = ""
    · subst hse
      exact absurd hs (by decide)
    · rw [validate_window_some, if_neg hse]
      have hc : SUPPORTED_WINDOWS.contains (pyLower (pyStrip s)) = true :=
        List.elem_eq_true_of_mem hs
      simp [hc]
      exact hs
  · intro s hs
    by_cases hse : s = ""
    · subst hse
      rfl
    · rw [validate_window_some, if_neg hse]
      have hc : SUPPORTED_WINDOWS.contains (pyLower (pyStrip s)) = false := by
        cases hcb : SUPPORTED_WINDOWS.contains (pyLower (pyStrip s)) with
        | false => rfl
        | true => exact absurd (List.mem_of_elem_eq_true hcb) hs
      simp [hc]
      exact hs

/-- Witness for C9 at concrete inputs: " 24H " is accepted as "24h",
"weekly" is rejected. -/
theorem claim_C9_witness :
    validate_window (some " 24H ") = Except.ok "24h" ∧
    validate_window (some "weekly") = Except.error () := by
  constructor
  · have h := claim_C9.2.2.1 " 24H " (by decide)
    rw [show pyLower (pyStrip " 24H ") = "24h" from by decide] at h
    exact h
  · exact claim_C9.2.2.2.1 "weekly" (by decide)

/-- C6: for an existing share record, a supplied window override (a value
of the declared `InsightWindow` type) differing from the record's stored
window fails with a validation error; when the live build raises and the
persisted payload parses, the parsed payload is returned; when that parse
fails, the original live exception is re-raised. -/
theorem claim_C6 :
    ∀ (S L U : Type) (record_window : String) (payload_parse : Except Unit S)
      (live : Except L S) (update : Except U Unit),
      (∀ w : String, w ∈ SUPPORTED_WINDOWS → w ≠ record_window →
        get_shared_snapshot record_window payload_parse (some w) live update
          = Except.error .valueError) ∧
      (∀ (exc : L) (snap : S), live = Except.error exc →
        payload_parse = Except.ok snap →
        get_shared_snapshot record_window payload_parse none live update
          = Except.ok snap) ∧
      (∀ exc : L, live = Except.error exc → payload_parse = Except.error () →
        get_shared_snapshot record_window payload_parse none live update
          = Except.error (.liveError exc)) := by
  intro S L U record_window payload_parse live update
  refine ⟨?_, ?_, ?_⟩
  · intro w hw hne
    have hwe : w ≠ "" := by
      intro he
      rw [he] at hw
      exact absurd hw (by decide)
    simp [get_shared_snapshot, validate_window_supported w hw, hwe, hne]
  · intro exc snap hlive hparse
    subst hlive
    subst hparse
    simp [get_shared_snapshot]
  · intro exc hlive hparse
    subst hlive
    subst hparse
    simp [get_shared_snapshot]

/-- Witness for C6 at concrete values: an override "7d" against a stored
"24h" record fails validation; a failed live build with a parseable
persisted payload returns that payload; one with an unparseable payload
re-raises the live error. -/
theorem claim_C6_witness :
    get_shared_snapshot (S := Nat) (L := String) (U := Unit) "24h"
        (Except.ok 41) (some "7d") (Except.error "db down") (Except.ok ())
      = Except.error .valueError ∧
    get_shared_snapshot (S := Nat) (L := String) (U := Unit) "24h"
        (Except.ok 41) none (Except.error "db down") (Except.ok ())
      = Except.ok 41 ∧
    get_shared_snapshot (S := Nat) (L := String) (U := Unit) "24h"
        (Except.error ()) none (Except.error "db down") (Except.ok ())
      = Except.error (.liveError "db down") := by
  refine ⟨?_, ?_, ?_⟩
  · exact (claim_C6 Nat String Unit "24h" (Except.ok 41)
      (Except.error "db down") (Except.ok ())).1 "7d" (by decide) (by decide)
  · exact (claim_C6 Nat String Unit "24h" (Except.ok 41)
      (Except.error "db down") (Except.ok ())).2.1 "db down" 41 rfl rfl
  · exact (claim_C6 Nat String Unit "24h" (Except.error ())
      (Except.error "db down") (Except.ok ())).2.2 "db down" rfl rfl

/-- C7 (counterexample): the write-back is not guarded by any
try/except — with a failing `update_payload` the call does not return the
freshly computed snapshot, so the best-effort claim fails on the code. -/
theorem claim_C7_counterexample : ¬ C7Claim := by
  intro h
  have hc := h Unit Unit Unit "24h" (Except.ok ()) () (Except.error ())
  rw [show get_shared_snapshot (S := Unit) (L := Unit) (U := Unit) "24h"
      (Except.ok ()) none (Except.ok ()) (Except.error ())
      = Except.error (.updateError ()) from rfl] at hc
  cases hc

/-- C7 (amended): after a successful live refresh, `get_shared_snapshot`
returns the snapshot only when the write-back succeeds; a failing
`update_payload` propagates its error instead of the computed snapshot. -/
theorem claim_C7_amended :
    ∀ (S L U : Type) (record_window : String) (payload_parse : Except Unit S)
      (snapshot : S),
      (∀ u : U, get_shared_snapshot (L := L) record_window payload_parse none
          (Except.ok snapshot) (Except.error u)
        = Except.error (.updateError u)) ∧
      get_shared_snapshot (L := L) (U := U) record_window payload_parse none
          (Except.ok snapshot) (Except.ok ())
        = Except.ok snapshot := by
  intro S L U record_window payload_parse snapshot
  constructor
  · intro u
    simp [get_shared_snapshot]
  · simp [get_shared_snapshot]

/-- C10: with the share base URL unset (or empty) but a working store and
a collision-free token, `create_share` fails with the configuration
`RuntimeError` only after the share row has been persisted: the call
errors, yet a row keyed by the new token's hash (and carrying the
requested window) exists in the store afterwards. -/
theorem claim_C10 :
    ∀ (P : Type) (hashToken urlOrigin : String → String)
      (base : Option String) (t : String) (rest : List String)
      (rows : List (ShareRow P)) (w : String) (payload : P)
      (sce exp : Option Int),
      (base = none ∨ base = some "") →
      w ∈ SUPPORTED_WINDOWS →
      rows.all (fun r => r.token_hash ≠ hashToken t) →
      (create_share_service hashToken urlOrigin base (t :: rest) rows
          (some w) payload sce exp).1 = Except.error () ∧
      ∃ record ∈ (create_share_service hashToken urlOrigin base (t :: rest)
          rows (some w) payload sce exp).2,
        record.token_hash = hashToken t ∧ record.window = w := by
  intro P hashToken urlOrigin base t rest rows w payload sce exp hbase hw hfree
  have hnocoll : rows.any (fun r => r.token_hash = hashToken t) = false := by
    rw [List.any_eq_false]
    intro r hr
    have := (List.all_eq_true.1 hfree) r hr
    simpa using this
  have hstore : create_share_store hashToken (t :: rest) 0 rows w payload
      (match exp with | some e => some e | none => sce)
      = Except.ok (t, (⟨hashToken t, w, payload,
          (match exp with | some e => some e | none => sce)⟩ : ShareRow P),
        rows ++ [⟨hashToken t, w, payload,
          (match exp with | some e => some e | none => sce)⟩]) := by
    unfold create_share_store
    simp only [hnocoll]
    simp
  have hurl : _build_share_url urlOrigin base t = Except.error () := by
    rcases hbase with rfl | rfl
    · rfl
    · rfl
  unfold create_share_service
  simp only [validate_window_supported w hw, hstore, hurl]
  constructor
  · trivial
  · refine ⟨⟨hashToken t, w, payload,
      (match exp with | some e => some e | none => sce)⟩, ?_, rfl, rfl⟩
    simp
    right
    cases exp <;> rfl

/-- Witness for C10: unset base URL, empty store, one fresh token — the
call fails yet the hashed row for the requested window is persisted. -/
theorem claim_C10_witness :
    (create_share_service (P := Unit) (fun s => s ++ "#h") id none ["tok"]
        [] (some "24h") () none none).1 = Except.error () ∧
    ∃ record ∈ (create_share_service (P := Unit) (fun s => s ++ "#h") id none
        ["tok"] [] (some "24h") () none none).2,
      record.token_hash = "tok" ++ "#h" ∧ record.window = "24h" :=
  claim_C10 Unit (fun s => s ++ "#h") id none "tok" [] [] "24h" () none none
    (Or.inl rfl) (by decide) (by decide)

/-- C8: `build_fallback` is a pure deterministic function of the
aggregated statistics: a zero severity-total sum yields the fixed
no-significant-events sentence; otherwise the output is exactly the
total-count sentence, the severity-mix sentence, the optional
top-3-labels clause, then the analyses-delta and high-severity-delta
clauses — each delta clause present exactly when its component exists and
is nonzero — joined with single spaces. -/
theorem claim_C8 :
    ∀ a : AggregatedInsights, build_fallback a = buildFallbackSpec a := by
  intro a
  by_cases h0 : a.severity_totals.low + a.severity_totals.medium
      + a.severity_totals.high = 0
  · unfold build_fallback buildFallbackSpec
    rw [if_pos h0, if_pos h0]
  · rw [build_fallback_as_parts a h0, filter_map_strip _ (sourceParts_good a),
      sourceParts_join_eq_clauses]
    unfold buildFallbackSpec
    rw [if_neg h0]

/-! ## Concrete scenario checks (spec section 8)

A 24h aggregation at `now = 100000` over three records — a high event one
hour ago, a low event twenty hours ago, and two medium events thirty hours
ago (outside the window) — yields `severity_totals = ⟨1, 0, 1⟩`,
`analyses = 2`, `high_severity_analyses = 1`, with the out-of-window
record excluded; and the generator output on a two-record aggregate is the
exact fallback sentence. -/

theorem scenario_severity_totals :
    (aggregate
      [⟨96400, [⟨some "intrusion", some "high"⟩]⟩,
       ⟨28000, [⟨some "loitering", some "low"⟩]⟩,
       ⟨-8000, [⟨some "crowd", some "medium"⟩, ⟨some "crowd", some "medium"⟩]⟩]
      .w24h 100000).severity_totals = ⟨1, 0, 1⟩ := by decide

theorem scenario_analyses :
    (aggregate
      [⟨96400, [⟨some "intrusion", some "high"⟩]⟩,
       ⟨28000, [⟨some "loitering", some "low"⟩]⟩,
       ⟨-8000, [⟨some "crowd", some "medium"⟩, ⟨some "crowd", some "medium"⟩]⟩]
      .w24h 100000).analyses = 2 := by decide

theorem scenario_high_severity_analyses :
    (aggregate
      [⟨96400, [⟨some "intrusion", some "high"⟩]⟩,
       ⟨28000, [⟨some "loitering", some "low"⟩]⟩,
       ⟨-8000, [⟨some "crowd", some "medium"⟩, ⟨some "crowd", some "medium"⟩]⟩]
      .w24h 100000).high_severity_analyses = 1 := by decide

theorem scenario_delta :
    (aggregate
      [⟨96400, [⟨some "intrusion", some "high"⟩]⟩,
       ⟨28000, [⟨some "loitering", some "low"⟩]⟩,
       ⟨-8000, [⟨some "crowd", some "medium"⟩, ⟨some "crowd", some "medium"⟩]⟩]
      .w24h 100000).delta = some [("analyses", 1), ("high_severity", 1)] := by
  decide

theorem scenario_top_labels :
    ((aggregate
      [⟨96400, [⟨some "intrusion", some "severe"⟩]⟩] .w24h 100000).top_labels.map
        (fun l => (l.label, l.count))) = [("Intrusion", 1)] := by decide

set_option maxRecDepth 10000 in
theorem scenario_summary :
    build_fallback (aggregate
      [⟨96400, [⟨some "intrusion", some "high"⟩]⟩,
       ⟨28000, [⟨some "loitering", some "low"⟩]⟩]
      .w24h 100000)
    = "2 notable moments were recorded over the past 24 hours. High-severity events occurred 1 time(s), alongside 0 medium and 1 low severity occurrences. Dominant activity: Intrusion, and Loitering. Total analyses increased by 2 compared to the prior window. High-severity incidents rose by 1." := by
  decide

end Clipnotes
